import Mathlib

/-!
Tension-sensor: Modbus-RTU master for the BSQ-DG-V2 load-cell transmitter.

Shallow embedding of `Bsq/modbus_crc.c`, `Bsq/bsp_rs485.c` and
`Bsq/bsq_sensor.c`.

Conventions of the embedding:

* C integers are natural numbers; a `uint8_t` is a value below 256 and a
  `uint16_t` a value below 65536.  Casts and wrapping arithmetic are written
  with an explicit `% 256` or `% 65536`.
* A C array is a list of cells.  A cell is `none` while its value is
  indeterminate (an automatic array that was declared but not yet written)
  and `some b` once it holds the byte `b`.
* A function result of `none` means that the C source does not determine the
  behaviour at that input: an access outside an array, or a read of an
  indeterminate cell.
* The UART is a scripted line: it carries the replies that future receive
  calls will obtain and a log of the calls made so far.
* A `float` is the rational number that it denotes.  The division of two
  `float` values is the IEEE 754 binary32 division: the exact quotient
  rounded to the nearest number with a significand of 24 bits, a tie going
  to the even significand.
-/

namespace Bsq

/-! ## modbus_crc.c -/

/-- Body of the inner loop of `Modbus_CRC16` (one bit of the shift register):
when the least significant bit is set, shift right and xor the polynomial
`0xA001`, otherwise shift right only. -/
def crcShift (crc : Nat) : Nat :=
  if (crc &&& 0x0001) != 0 then
    (crc >>> 1) ^^^ 0xA001
  else
    crc >>> 1

/-- Inner loop `for (int i = 8; i != 0; i--)` of `Modbus_CRC16`. -/
def crcBits : Nat → Nat → Nat
  | 0, crc => crc
  | i + 1, crc => crcBits i (crcShift crc)

/-- Outer loop `for (pos = 0; pos < len; pos++)` of `Modbus_CRC16`, over the
`len` bytes the pointer `buffer` designates; `(uint16_t)buffer[pos]` is the
cast of the byte to 16 bits. -/
def crcLoop : List Nat → Nat → Nat
  | [], crc => crc
  | b :: rest, crc => crcLoop rest (crcBits 8 (crc ^^^ (b % 65536)))

/-- The function `Modbus_CRC16(buffer, len)`: the argument is the list of the
`len` bytes starting at `buffer`. -/
def Modbus_CRC16 (buffer : List Nat) : Nat :=
  crcLoop buffer 0xFFFF

/-! ### The CRC as section 4.1 of the specification words it -/

/-- Specification wording: exclusive-or the input byte into the low byte of
the accumulator (the high part of the accumulator is kept). -/
def specXorLow (acc byte : Nat) : Nat :=
  (acc / 256) * 256 + ((acc % 256) ^^^ byte)

/-- Specification wording: one round, "if the low bit is set, shift right one
and exclusive-or with 0xA001, else shift right one with no exclusive-or". -/
def specRound (acc : Nat) : Nat :=
  if acc % 2 = 1 then (acc / 2) ^^^ 0xA001 else acc / 2

/-- Specification wording: 8 rounds. -/
def specRounds (acc : Nat) : Nat :=
  specRound (specRound (specRound (specRound
    (specRound (specRound (specRound (specRound acc)))))))

/-- Specification wording of the CRC16 engine: accumulator initialised to
`0xFFFF`, then one byte step per input byte, in order. -/
def specCrc16 (bytes : List Nat) : Nat :=
  bytes.foldl (fun acc b => specRounds (specXorLow acc b)) 0xFFFF

/-! ## Memory cells -/

/-- A C array of `uint8_t`: one cell per element, `none` while the element is
indeterminate. -/
abbrev Buf := List (Option Nat)

/-- Read of `buf[i]`: defined when `i` is inside the array and the cell has
been written. -/
def rd (buf : Buf) (i : Nat) : Option Nat :=
  (buf[i]?).join

/-- Read of `buf[i]` for an index computed in `int` arithmetic, which may be
negative. -/
def rdInt (buf : Buf) (i : Int) : Option Nat :=
  if i < 0 then none else rd buf i.toNat

/-- Assignment `buf[i] = v`: defined when `i` is inside the array. -/
def wr (buf : Buf) (i : Nat) (v : Nat) : Option Buf :=
  if i < buf.length then some (buf.set i (some v)) else none

/-- The `len` bytes that a callee reads through the pointer `buf`, in order:
defined when all of them are inside the array and written. -/
def readBytes : Buf → Nat → Option (List Nat)
  | _, 0 => some []
  | [], _ + 1 => none
  | none :: _, _ + 1 => none
  | some b :: rest, n + 1 => (readBytes rest n).map (fun bs => b :: bs)

/-- Conversion of an `int` value to `uint16_t`. -/
def toU16 (i : Int) : Nat :=
  (i % 65536).toNat

/-- Conversion of an `int` value to `int16_t` (two's complement). -/
def toI16 (v : Nat) : Int :=
  if v % 65536 < 32768 then ((v % 65536 : Nat) : Int) else ((v % 65536 : Nat) : Int) - 65536

/-! ## Single-precision division -/

/-- The quotient `n / d` rounded to the nearest integer, a tie going to the
even neighbour (`d` positive). -/
def roundHalfEven (n d : Nat) : Nat :=
  if 2 * (n % d) < d then n / d
  else if d < 2 * (n % d) then n / d + 1
  else if (n / d) % 2 = 0 then n / d
  else n / d + 1

/-- The integer `e` with `2 ^ e ≤ n / d < 2 ^ (e + 1)`, for positive `n` and
`d`: the binary exponent of the quotient. -/
def floorLog2 (n d : Nat) : Int :=
  if d * 2 ^ Nat.log2 n ≤ n * 2 ^ Nat.log2 d then (Nat.log2 n : Int) - (Nat.log2 d : Int)
  else (Nat.log2 n : Int) - (Nat.log2 d : Int) - 1

/-- The IEEE 754 binary32 number nearest to `n / d`, ties to even, for
positive `n` and `d`: the quotient is scaled by a power of two so that it
lies between `2 ^ 23` and `2 ^ 24`, rounded to an integer significand of 24
bits, and scaled back.  The exponent is not bounded here; binary32 has this
value as long as the magnitude lies between `2 ^ (-126)` and `2 ^ 128`,
which holds for every quotient of a 16-bit integer by 1, 10, 100 or 1000. -/
def roundBinary32 (n d : Nat) : ℚ :=
  let k : Int := 23 - floorLog2 n d
  if 0 ≤ k then (roundHalfEven (n * 2 ^ k.toNat) d : ℚ) / (2 ^ k.toNat : Nat)
  else (roundHalfEven n (d * 2 ^ (-k).toNat) : ℚ) * (2 ^ (-k).toNat : Nat)

/-- The C expression `(float)a / b` for an integer `a` and a positive integer
constant `b` that are both binary32 numbers: the conversion is exact and the
division rounds the quotient to the nearest binary32 number.  The result is
given as the rational number that the `float` denotes. -/
def floatDiv (a : Int) (b : Nat) : ℚ :=
  if a = 0 then 0
  else if 0 < a then roundBinary32 a.natAbs b
  else -roundBinary32 a.natAbs b

/-! ## The UART underneath bsp_rs485.c -/

/-- Modelled from the spec: the status type of the STM32 HAL, which `main.h`
brings in and which is not part of the sources.  `HAL_OK` is success; the
other three are the failures of the transport (section 6, `TransportError`). -/
inductive HAL_StatusTypeDef
  | HAL_OK
  | HAL_ERROR
  | HAL_BUSY
  | HAL_TIMEOUT
  deriving DecidableEq

/-- One call made on the UART, as it appears in the log. -/
inductive UartCall
  | transmit (data : List Nat) (timeout : Nat)
  | receive (len : Nat) (timeout : Nat)
  deriving DecidableEq

/-- Modelled from the spec: the UART handle of the STM32 HAL (not part of the
sources), as the scripted line of section 6: `replies` holds, for each
receive call to come, the status it returns and the bytes that arrive, and
`log` records the calls made, oldest first. -/
structure UART_HandleTypeDef where
  replies : List (HAL_StatusTypeDef × List Nat)
  log : List UartCall
  deriving DecidableEq

/-- Modelled from the spec: `HAL_UART_Transmit(huart, data, len, timeout)` of
the STM32 HAL (not part of the sources), the `send` of section 6: it
transmits exactly the `len` bytes at `data`. -/
def HAL_UART_Transmit (huart : UART_HandleTypeDef) (data : List Nat) (len timeout : Nat) :
    UART_HandleTypeDef :=
  { huart with log := huart.log ++ [UartCall.transmit (data.take len) timeout] }

/-- Modelled from the spec: `HAL_UART_Receive(huart, data, len, timeout)` of
the STM32 HAL (not part of the sources), the `receive` of section 6: it
stores at most `len` of the arriving bytes at `data` and returns the status.
With nothing scripted the call times out.  Storing more bytes than the array
`data` has cells is an access outside the array. -/
def HAL_UART_Receive (huart : UART_HandleTypeDef) (data : Buf) (len timeout : Nat) :
    UART_HandleTypeDef × Option (HAL_StatusTypeDef × Buf) :=
  let reply := huart.replies.headD (HAL_StatusTypeDef.HAL_TIMEOUT, [])
  let got := reply.2.take len
  ({ replies := huart.replies.tail, log := huart.log ++ [UartCall.receive len timeout] },
   if got.length ≤ data.length then
     some (reply.1, got.map some ++ data.drop got.length)
   else
     none)

/-! ## bsp_rs485.h, bsp_rs485.c -/

/-- The struct `RS485_Handle_t`. -/
structure RS485_Handle_t where
  huart : UART_HandleTypeDef
  de_port : Nat
  de_pin : Nat
  deriving DecidableEq

/-- The function `RS485_Send`: one blocking transmit with a 100 ms timeout
(the critical section around it has no effect on a single thread). -/
def RS485_Send (h485 : RS485_Handle_t) (data : List Nat) (len : Nat) : RS485_Handle_t :=
  { h485 with huart := HAL_UART_Transmit h485.huart data len 100 }

/-- The function `RS485_Receive`: one blocking receive. -/
def RS485_Receive (h485 : RS485_Handle_t) (data : Buf) (len timeout : Nat) :
    RS485_Handle_t × Option (HAL_StatusTypeDef × Buf) :=
  let r := HAL_UART_Receive h485.huart data len timeout
  ({ h485 with huart := r.1 }, r.2)

/-! ## bsq_sensor.h, bsq_sensor.c -/

/-- Register address of the measured value. -/
def REG_MEASURE_VAL : Nat := 0x0000
/-- Register address of the decimal point. -/
def REG_DECIMAL_PT : Nat := 0x0001
/-- Register address of the tare command. -/
def REG_TARE : Nat := 0x0011
/-- Register address of the zero command. -/
def REG_ZERO : Nat := 0x0016

/-- The struct `BSQ_Data_t`.  The `float` field `weight` holds the rational
number that the single-precision value denotes. -/
structure BSQ_Data_t where
  weight : ℚ
  raw_value : Int
  decimal_point : Nat
  comm_error : Bool
  deriving DecidableEq

/-- The struct `BSQ_Device_t`. -/
structure BSQ_Device_t where
  rs485 : RS485_Handle_t
  slave_addr : Nat
  deriving DecidableEq

/-- The function `BSQ_Init`; the parameter `addr` is a `uint8_t`. -/
def BSQ_Init (dev : BSQ_Device_t) (huart : UART_HandleTypeDef) (addr : Nat) : BSQ_Device_t :=
  { rs485 := { dev.rs485 with huart := huart }, slave_addr := addr % 256 }

/-- Step 5 of `Modbus_ReadRegs`, the loop
`for (int i = 0; i < rx_buf[2]; i++) out_buf[i] = rx_buf[3 + i];`
with `n` iterations left to run from index `i`. -/
def copyOut (rx_buf : Buf) : Nat → Nat → Buf → Option Buf
  | 0, _, out_buf => some out_buf
  | n + 1, i, out_buf =>
    match rd rx_buf (3 + i) with
    | none => none
    | some v =>
      match wr out_buf i v with
      | none => none
      | some out_buf => copyOut rx_buf n (i + 1) out_buf

/-- Steps 4 and 5 of `Modbus_ReadRegs`, after a receive that returned
`HAL_OK`: the address and function code checks, the CRC check, and the copy
of the data bytes.  The result is the return value and the output array. -/
def readRegsCheck (slave_addr expected_len : Nat) (rx_buf out_buf : Buf) :
    Option (Bool × Buf) :=
  match rd rx_buf 0 with
  | none => none
  | some b0 =>
    if b0 != slave_addr then some (false, out_buf) else
    match rd rx_buf 1 with
    | none => none
    | some b1 =>
      if b1 != 0x03 then some (false, out_buf) else
      match readBytes rx_buf (toU16 ((expected_len : Int) - 2)) with
      | none => none
      | some body =>
        let crc := Modbus_CRC16 body
        match rdInt rx_buf ((expected_len : Int) - 2), rdInt rx_buf ((expected_len : Int) - 1) with
        | some lo, some hi =>
          let recv_crc := (lo ||| (hi <<< 8)) % 65536
          if crc != recv_crc then some (false, out_buf) else
          match rd rx_buf 2 with
          | none => none
          | some count =>
            match copyOut rx_buf count 0 out_buf with
            | none => none
            | some out_buf => some (true, out_buf)
        | _, _ => none

/-- The function `Modbus_ReadRegs` (function code 03).  The result is the
device after the call, with the UART log extended, and the outcome: the
return value together with the output array `out_buf`. -/
def Modbus_ReadRegs (dev : BSQ_Device_t) (start_reg reg_count : Nat) (out_buf : Buf) :
    BSQ_Device_t × Option (Bool × Buf) :=
  -- 1. request frame
  let tx6 := [dev.slave_addr, 0x03, (start_reg >>> 8) &&& 0xFF, start_reg &&& 0xFF,
    (reg_count >>> 8) &&& 0xFF, reg_count &&& 0xFF]
  let crc := Modbus_CRC16 tx6
  let tx_buf := tx6 ++ [crc &&& 0xFF, (crc >>> 8) &&& 0xFF]
  -- 2. send
  let rs485 := RS485_Send dev.rs485 tx_buf 8
  -- 3. receive into `uint8_t rx_buf[32]`
  let rx_buf : Buf := List.replicate 32 none
  let expected_len := (5 + reg_count * 2) % 65536
  let r := RS485_Receive rs485 rx_buf expected_len 200
  ({ dev with rs485 := r.1 },
   match r.2 with
   | none => none
   | some (status, rx_buf) =>
     if status != HAL_StatusTypeDef.HAL_OK then some (false, out_buf)
     else readRegsCheck dev.slave_addr expected_len rx_buf out_buf)

/-- The function `Modbus_WriteSingle` (function code 06).  The result is the
device after the call and the return value. -/
def Modbus_WriteSingle (dev : BSQ_Device_t) (reg_addr val : Nat) :
    BSQ_Device_t × Option Bool :=
  -- 1. request frame
  let tx6 := [dev.slave_addr, 0x06, (reg_addr >>> 8) &&& 0xFF, reg_addr &&& 0xFF,
    (val >>> 8) &&& 0xFF, val &&& 0xFF]
  let crc := Modbus_CRC16 tx6
  let tx_buf := tx6 ++ [crc &&& 0xFF, (crc >>> 8) &&& 0xFF]
  -- 2. send
  let rs485 := RS485_Send dev.rs485 tx_buf 8
  -- 3. receive into `uint8_t rx_buf[8]`
  let rx_buf : Buf := List.replicate 8 none
  let r := RS485_Receive rs485 rx_buf 8 200
  ({ dev with rs485 := r.1 },
   match r.2 with
   | none => none
   | some (status, rx_buf) =>
     if status != HAL_StatusTypeDef.HAL_OK then some false
     else
       -- 4. echo check of the function code
       match rd rx_buf 1 with
       | none => none
       | some b1 => if b1 != 0x06 then some false else some true)

/-- The decoding part of `BSQ_ReadWeight`, after a successful read of the two
registers into `raw_bytes`.  The `float` constants `1.0f`, `10.0f`, `100.0f`
and `1000.0f` of the `switch` are the integers 1, 10, 100 and 1000, and
`(float)data->raw_value / divisor` is the single-precision division. -/
def decodeWeight (raw_bytes : Buf) : Option BSQ_Data_t :=
  match rd raw_bytes 0, rd raw_bytes 1, rd raw_bytes 2, rd raw_bytes 3 with
  | some r0, some r1, some r2, some r3 =>
    let raw_value := toI16 ((r0 <<< 8) ||| r1)
    let dp_reg := ((r2 <<< 8) ||| r3) % 65536
    let decimal_point := dp_reg % 256
    let divisor : Nat :=
      match decimal_point with
      | 1 => 10
      | 2 => 100
      | 3 => 1000
      | _ => 1
    some { weight := floatDiv raw_value divisor, raw_value := raw_value,
           decimal_point := decimal_point, comm_error := false }
  | _, _, _, _ => none

/-- The function `BSQ_ReadWeight`.  The result is the device after the call
and the outcome: the return value together with the record `data`. -/
def BSQ_ReadWeight (dev : BSQ_Device_t) (data : BSQ_Data_t) :
    BSQ_Device_t × Option (Bool × BSQ_Data_t) :=
  -- `uint8_t raw_bytes[4]`
  let raw_bytes : Buf := List.replicate 4 none
  let r := Modbus_ReadRegs dev REG_MEASURE_VAL 2 raw_bytes
  (r.1,
   match r.2 with
   | none => none
   | some (false, _) => some (false, { data with comm_error := true })
   | some (true, raw_bytes) =>
     match decodeWeight raw_bytes with
     | none => none
     | some decoded => some (true, decoded))

/-- The function `BSQ_Tare`. -/
def BSQ_Tare (dev : BSQ_Device_t) : BSQ_Device_t × Option Bool :=
  Modbus_WriteSingle dev REG_TARE 0x0001

/-- The function `BSQ_Zero`. -/
def BSQ_Zero (dev : BSQ_Device_t) : BSQ_Device_t × Option Bool :=
  Modbus_WriteSingle dev REG_ZERO 0x0011

/-- A device on a line with the given scripted replies and an empty log. -/
def deviceOn (addr : Nat) (replies : List (HAL_StatusTypeDef × List Nat)) : BSQ_Device_t :=
  { rs485 := { huart := { replies := replies, log := [] }, de_port := 0, de_pin := 0 },
    slave_addr := addr }


/-! ## Notions used to state the properties of frames -/

/-- The bytes of a frame that precede its two-byte CRC field. -/
def frameBody (frame : List Nat) : List Nat :=
  frame.take (frame.length - 2)

/-- The CRC field of a frame, its last two bytes, read low byte first. -/
def frameCrc (frame : List Nat) : Nat :=
  frame.getD (frame.length - 2) 0 + 256 * frame.getD (frame.length - 1) 0

/-- The frame with bit `k` of its CRC field flipped: bits 0 to 7 lie in the
low byte (the next to last byte of the frame), bits 8 to 15 in the high byte
(the last byte of the frame). -/
def flipCrcBit (frame : List Nat) (k : Nat) : List Nat :=
  if k < 8 then
    frame.set (frame.length - 2) (frame.getD (frame.length - 2) 0 ^^^ 2 ^ k)
  else
    frame.set (frame.length - 1) (frame.getD (frame.length - 1) 0 ^^^ 2 ^ (k - 8))

/-- The read response of a slave: address, function code 03, byte count, the
data bytes, and the CRC of all that, low byte first. -/
def readResponse (slave_addr : Nat) (payload : List Nat) : List Nat :=
  [slave_addr, 0x03, payload.length] ++ payload ++
    [Modbus_CRC16 ([slave_addr, 0x03, payload.length] ++ payload) % 256,
      Modbus_CRC16 ([slave_addr, 0x03, payload.length] ++ payload) / 256]


/-- The response of the end-to-end example of section 8: slave 1 answers the
read of two registers with the data bytes `00 96 00 01`. -/
def exampleResponse : List Nat :=
  [0x01, 0x03, 0x04, 0x00, 0x96, 0x00, 0x01, 0xDB, 0xDF]

/-- The device of the end-to-end example: slave address 1, on a line that
delivers `exampleResponse` to the next receive call. -/
def exampleDevice : BSQ_Device_t :=
  deviceOn 1 [(HAL_StatusTypeDef.HAL_OK, exampleResponse)]

/-- The request frame of section 3: address, function code, two 16-bit words
with the high byte first, then the CRC of these six bytes with the low byte
first. -/
def requestFrame (slave_addr func word1 word2 : Nat) : List Nat :=
  [slave_addr, func, word1 / 256, word1 % 256, word2 / 256, word2 % 256,
    Modbus_CRC16 [slave_addr, func, word1 / 256, word1 % 256, word2 / 256, word2 % 256] % 256,
    Modbus_CRC16 [slave_addr, func, word1 / 256, word1 % 256, word2 / 256, word2 % 256] / 256]

/-! ## Notions used to state the decoding -/

/-- The unsigned 16-bit value of two bytes, high byte first (big endian). -/
def be16 (hi lo : Nat) : Nat :=
  256 * hi + lo

/-- A 16-bit pattern read as a two's complement signed integer. -/
def twosComplement16 (v : Nat) : Int :=
  if v < 32768 then (v : Int) else (v : Int) - 65536

/-! ## Arithmetic of bytes and 16-bit words -/

theorem and_ff_eq_mod (x : Nat) : x &&& 0xFF = x % 256 :=
  Nat.and_pow_two_sub_one_eq_mod x 8

theorem shr8_eq_div (x : Nat) : x >>> 8 = x / 256 :=
  Nat.shiftRight_eq_div_pow x 8

theorem or_shl8_eq_add (lo hi : Nat) (hlo : lo < 256) : lo ||| (hi <<< 8) = lo + 256 * hi := by
  have h := Nat.mul_add_lt_is_or (i := 8) hlo hi
  rw [Nat.shiftLeft_eq, Nat.or_comm, Nat.mul_comm hi]
  omega

theorem xor_low_byte (acc b : Nat) (hb : b < 256) :
    (acc / 256) * 256 + ((acc % 256) ^^^ b) = acc ^^^ b := by
  have hx : (acc % 256) ^^^ b < 2 ^ 8 :=
    Nat.xor_lt_two_pow (Nat.mod_lt _ (by decide)) hb
  apply Nat.eq_of_testBit_eq
  intro j
  rw [Nat.mul_comm, Nat.testBit_mul_pow_two_add _ hx]
  by_cases hj : j < 8
  · simp [hj, Nat.testBit_mod_two_pow acc 8 j]
  · have hbj : b.testBit j = false := by
      apply Nat.testBit_lt_two_pow
      calc b < 2 ^ 8 := hb
        _ ≤ 2 ^ j := Nat.pow_le_pow_right (by decide) (by omega)
    have hdiv : (acc / 256).testBit (j - 8) = acc.testBit j := by
      rw [← shr8_eq_div, Nat.testBit_shiftRight]
      congr 1
      omega
    simp [hj, hbj, hdiv]

/-! ## The CRC16 engine -/

theorem crcShift_eq_specRound (c : Nat) : crcShift c = specRound c := by
  unfold crcShift specRound
  rw [Nat.and_one_is_mod, Nat.shiftRight_eq_div_pow]
  by_cases h : c % 2 = 1
  · simp [h]
  · have h0 : c % 2 = 0 := by omega
    simp [h0]

theorem crcBits_eight (c : Nat) : crcBits 8 c = specRounds c := by
  simp [crcBits, specRounds, crcShift_eq_specRound]

theorem crcShift_lt (c : Nat) (hc : c < 65536) : crcShift c < 65536 := by
  unfold crcShift
  have h1 : c >>> 1 < 2 ^ 16 := by
    rw [Nat.shiftRight_eq_div_pow]
    omega
  split
  · exact Nat.xor_lt_two_pow h1 (by decide)
  · exact h1

theorem crcBits_lt (n c : Nat) (hc : c < 65536) : crcBits n c < 65536 := by
  induction n generalizing c with
  | zero => simpa [crcBits] using hc
  | succ n ih =>
    rw [crcBits]
    exact ih _ (crcShift_lt c hc)

theorem crcLoop_lt (m : List Nat) (c : Nat) (hc : c < 65536) : crcLoop m c < 65536 := by
  induction m generalizing c with
  | nil => simpa [crcLoop] using hc
  | cons b rest ih =>
    rw [crcLoop]
    apply ih
    apply crcBits_lt
    exact Nat.xor_lt_two_pow (n := 16) hc (Nat.mod_lt _ (by decide))

theorem Modbus_CRC16_lt (m : List Nat) : Modbus_CRC16 m < 65536 :=
  crcLoop_lt m 0xFFFF (by decide)

theorem crcLoop_eq_foldl (m : List Nat) (c : Nat) (hm : ∀ b ∈ m, b < 256) :
    crcLoop m c = m.foldl (fun acc b => specRounds (specXorLow acc b)) c := by
  induction m generalizing c with
  | nil => rfl
  | cons b rest ih =>
    have hb : b < 256 := hm b (List.mem_cons_self b rest)
    have hmod : b % 65536 = b := Nat.mod_eq_of_lt (by omega)
    rw [crcLoop, List.foldl_cons, ih _ (fun x hx => hm x (List.mem_cons_of_mem b hx)),
      crcBits_eight, hmod]
    unfold specXorLow
    rw [xor_low_byte c b hb]

/-- C1: for every byte sequence `Modbus_CRC16` equals the CRC16 engine as
section 4.1 words it (accumulator `0xFFFF`, the byte xored into the low byte,
8 rounds of shift right with a conditional xor of `0xA001`), the result is a
16-bit value, and the CRC of the empty sequence is `0xFFFF`. -/
theorem Modbus_CRC16_refines_spec (m : List Nat) (hm : ∀ b ∈ m, b < 256) :
    Modbus_CRC16 m = specCrc16 m ∧ Modbus_CRC16 m < 65536 ∧ Modbus_CRC16 [] = 0xFFFF :=
  ⟨crcLoop_eq_foldl m 0xFFFF hm, Modbus_CRC16_lt m, rfl⟩

/-- C1 at the six bytes of the read request `01 03 00 00 00 02`. -/
theorem Modbus_CRC16_refines_spec_witness :
    (∀ b ∈ [0x01, 0x03, 0x00, 0x00, 0x00, 0x02], b < 256) ∧
      (Modbus_CRC16 [0x01, 0x03, 0x00, 0x00, 0x00, 0x02]
          = specCrc16 [0x01, 0x03, 0x00, 0x00, 0x00, 0x02] ∧
        Modbus_CRC16 [0x01, 0x03, 0x00, 0x00, 0x00, 0x02] < 65536 ∧
        Modbus_CRC16 [] = 0xFFFF) :=
  ⟨by decide, Modbus_CRC16_refines_spec [0x01, 0x03, 0x00, 0x00, 0x00, 0x02] (by decide)⟩


/-! ## Cells, arrays and the receive call -/

theorem hi_byte_of_lt (x : Nat) (hx : x < 65536) : (x >>> 8) &&& 0xFF = x / 256 := by
  rw [and_ff_eq_mod, shr8_eq_div]
  omega

theorem rd_written (bytes : List Nat) (tail : Buf) (i : Nat) (hi : i < bytes.length) :
    rd (bytes.map some ++ tail) i = some (bytes.getD i 0) := by
  unfold rd
  rw [List.getElem?_append_left (by simpa using hi)]
  simp [List.getD_eq_getElem?_getD, List.getElem?_eq_getElem hi]

theorem rd_unwritten (bytes : List Nat) (k i : Nat) (hi : bytes.length ≤ i) :
    rd (bytes.map some ++ List.replicate k none) i = none := by
  unfold rd
  rw [List.getElem?_append_right (by simpa using hi)]
  by_cases h : i - (List.map some bytes).length < k
  · simp [List.getElem?_replicate, h]
  · simp [List.getElem?_replicate, h]

theorem readBytes_zero (buf : Buf) : readBytes buf 0 = some [] := by
  cases buf with
  | nil => rfl
  | cons c rest => cases c <;> rfl

theorem readBytes_written (bytes : List Nat) (tail : Buf) (k : Nat) (hk : k ≤ bytes.length) :
    readBytes (bytes.map some ++ tail) k = some (bytes.take k) := by
  induction bytes generalizing k with
  | nil =>
    have : k = 0 := by simpa using hk
    subst this
    exact readBytes_zero _
  | cons b rest ih =>
    cases k with
    | zero => exact readBytes_zero _
    | succ k =>
      have hk2 : k ≤ rest.length := by simpa using hk
      simp [readBytes, ih k hk2]

theorem toU16_sub_two (n : Nat) (h2 : 2 ≤ n) (h16 : n < 65536) :
    toU16 ((n : Int) - 2) = n - 2 := by
  unfold toU16
  omega

theorem rdInt_sub (buf : Buf) (n k : Nat) (hk : k ≤ n) :
    rdInt buf ((n : Int) - (k : Int)) = rd buf (n - k) := by
  unfold rdInt
  have h1 : ¬ ((n : Int) - (k : Int) < 0) := by omega
  have h2 : ((n : Int) - (k : Int)).toNat = n - k := by omega
  rw [if_neg h1, h2]

theorem RS485_Receive_reply (h485 : RS485_Handle_t) (st : HAL_StatusTypeDef)
    (resp : List Nat) (rest : List (HAL_StatusTypeDef × List Nat)) (cap n t : Nat)
    (hrep : h485.huart.replies = (st, resp) :: rest) (hlen : resp.length = n) :
    (RS485_Receive h485 (List.replicate cap none) n t).2 =
      if n ≤ cap then some (st, resp.map some ++ List.replicate (cap - n) none) else none := by
  subst hlen
  simp [RS485_Receive, HAL_UART_Receive, hrep]


theorem rdInt_written (bytes : List Nat) (tail : Buf) (k : Nat) (hk : k ≤ bytes.length)
    (hk0 : 0 < k) :
    rdInt (bytes.map some ++ tail) ((bytes.length : Int) - (k : Int)) =
      some (bytes.getD (bytes.length - k) 0) := by
  rw [rdInt_sub _ _ _ hk, rd_written _ _ _ (by omega)]

theorem readRegsCheck_written (a : Nat) (resp : List Nat) (tail out : Buf)
    (h3 : 3 ≤ resp.length) (h16 : resp.length < 65536) :
    readRegsCheck a resp.length (resp.map some ++ tail) out =
      if resp.getD 0 0 ≠ a then some (false, out)
      else if resp.getD 1 0 ≠ 0x03 then some (false, out)
      else if Modbus_CRC16 (resp.take (resp.length - 2)) ≠
          (resp.getD (resp.length - 2) 0 ||| (resp.getD (resp.length - 1) 0 <<< 8)) % 65536
        then some (false, out)
      else (copyOut (resp.map some ++ tail) (resp.getD 2 0) 0 out).map (fun o => (true, o)) := by
  have e0 := rd_written resp tail 0 (by omega)
  have e1 := rd_written resp tail 1 (by omega)
  have e2 := rd_written resp tail 2 (by omega)
  have eB := readBytes_written resp tail (resp.length - 2) (by omega)
  have eLo := rdInt_written resp tail 2 (by omega) (by omega)
  have eHi := rdInt_written resp tail 1 (by omega) (by omega)
  have eU := toU16_sub_two resp.length (by omega) h16
  unfold readRegsCheck
  simp only [Nat.cast_ofNat, Nat.cast_one] at eLo eHi
  simp only [e0, e1, e2, eU, eB, eLo, eHi]
  by_cases c0 : resp.getD 0 0 = a
  · by_cases c1 : resp.getD 1 0 = 3
    · by_cases c2 : Modbus_CRC16 (resp.take (resp.length - 2)) =
          (resp.getD (resp.length - 2) 0 ||| (resp.getD (resp.length - 1) 0 <<< 8)) % 65536
      · simp only [c0, c1, c2, bne_self_eq_false, ne_eq, not_true_eq_false, if_false,
          Bool.false_eq_true]
        cases copyOut (resp.map some ++ tail) (resp.getD 2 0) 0 out <;> rfl
      · have b2 := bne_iff_ne.mpr c2
        simp only [c0, c1, c2, b2, bne_self_eq_false, ne_eq, not_true_eq_false, if_false,
          Bool.false_eq_true, if_true, not_false_eq_true]
    · have b1 := bne_iff_ne.mpr c1
      simp only [c0, c1, b1, bne_self_eq_false, ne_eq, not_true_eq_false, if_false,
        Bool.false_eq_true, if_true, not_false_eq_true]
  · have b0 := bne_iff_ne.mpr c0
    simp only [c0, b0, ne_eq, if_true, not_false_eq_true]


/-! ## The two transactions -/

theorem Modbus_ReadRegs_log (dev : BSQ_Device_t) (start_reg reg_count : Nat) (out_buf : Buf) :
    (Modbus_ReadRegs dev start_reg reg_count out_buf).1.rs485.huart.log =
      dev.rs485.huart.log ++
        [UartCall.transmit
            [dev.slave_addr, 0x03, (start_reg >>> 8) &&& 0xFF, start_reg &&& 0xFF,
              (reg_count >>> 8) &&& 0xFF, reg_count &&& 0xFF,
              Modbus_CRC16 [dev.slave_addr, 0x03, (start_reg >>> 8) &&& 0xFF,
                start_reg &&& 0xFF, (reg_count >>> 8) &&& 0xFF, reg_count &&& 0xFF] &&& 0xFF,
              (Modbus_CRC16 [dev.slave_addr, 0x03, (start_reg >>> 8) &&& 0xFF,
                start_reg &&& 0xFF, (reg_count >>> 8) &&& 0xFF, reg_count &&& 0xFF] >>> 8)
                &&& 0xFF] 100,
          UartCall.receive ((5 + reg_count * 2) % 65536) 200] := by
  simp [Modbus_ReadRegs, RS485_Send, RS485_Receive, HAL_UART_Transmit, HAL_UART_Receive]

theorem Modbus_WriteSingle_log (dev : BSQ_Device_t) (reg_addr val : Nat) :
    (Modbus_WriteSingle dev reg_addr val).1.rs485.huart.log =
      dev.rs485.huart.log ++
        [UartCall.transmit
            [dev.slave_addr, 0x06, (reg_addr >>> 8) &&& 0xFF, reg_addr &&& 0xFF,
              (val >>> 8) &&& 0xFF, val &&& 0xFF,
              Modbus_CRC16 [dev.slave_addr, 0x06, (reg_addr >>> 8) &&& 0xFF,
                reg_addr &&& 0xFF, (val >>> 8) &&& 0xFF, val &&& 0xFF] &&& 0xFF,
              (Modbus_CRC16 [dev.slave_addr, 0x06, (reg_addr >>> 8) &&& 0xFF,
                reg_addr &&& 0xFF, (val >>> 8) &&& 0xFF, val &&& 0xFF] >>> 8)
                &&& 0xFF] 100,
          UartCall.receive 8 200] := by
  simp [Modbus_WriteSingle, RS485_Send, RS485_Receive, HAL_UART_Transmit, HAL_UART_Receive]

theorem crc_lo_byte (m : List Nat) : Modbus_CRC16 m &&& 0xFF = Modbus_CRC16 m % 256 :=
  and_ff_eq_mod _

theorem crc_hi_byte (m : List Nat) : (Modbus_CRC16 m >>> 8) &&& 0xFF = Modbus_CRC16 m / 256 :=
  hi_byte_of_lt _ (Modbus_CRC16_lt m)

theorem Modbus_ReadRegs_value (dev : BSQ_Device_t) (start_reg reg_count : Nat) (out_buf : Buf)
    (st : HAL_StatusTypeDef) (resp : List Nat) (rest : List (HAL_StatusTypeDef × List Nat))
    (hrep : dev.rs485.huart.replies = (st, resp) :: rest)
    (hlen : resp.length = (5 + reg_count * 2) % 65536) :
    (Modbus_ReadRegs dev start_reg reg_count out_buf).2 =
      if resp.length ≤ 32 then
        if st ≠ HAL_StatusTypeDef.HAL_OK then some (false, out_buf)
        else readRegsCheck dev.slave_addr resp.length
          (resp.map some ++ List.replicate (32 - resp.length) none) out_buf
      else none := by
  have hr := RS485_Receive_reply
    (RS485_Send dev.rs485
      ([dev.slave_addr, 0x03, (start_reg >>> 8) &&& 0xFF, start_reg &&& 0xFF,
          (reg_count >>> 8) &&& 0xFF, reg_count &&& 0xFF] ++
        [Modbus_CRC16 [dev.slave_addr, 0x03, (start_reg >>> 8) &&& 0xFF, start_reg &&& 0xFF,
            (reg_count >>> 8) &&& 0xFF, reg_count &&& 0xFF] &&& 0xFF,
          (Modbus_CRC16 [dev.slave_addr, 0x03, (start_reg >>> 8) &&& 0xFF, start_reg &&& 0xFF,
            (reg_count >>> 8) &&& 0xFF, reg_count &&& 0xFF] >>> 8) &&& 0xFF]) 8)
    st resp rest 32 ((5 + reg_count * 2) % 65536) 200 hrep hlen
  rw [← hlen] at hr
  unfold Modbus_ReadRegs
  simp only [← hlen, hr]
  by_cases h32 : resp.length ≤ 32
  · by_cases hst : st = HAL_StatusTypeDef.HAL_OK
    · simp [h32, hst]
    · simp [h32, hst]
  · simp [h32]

theorem Modbus_WriteSingle_value (dev : BSQ_Device_t) (reg_addr val : Nat)
    (st : HAL_StatusTypeDef) (resp : List Nat) (rest : List (HAL_StatusTypeDef × List Nat))
    (hrep : dev.rs485.huart.replies = (st, resp) :: rest) (hlen : resp.length = 8) :
    (Modbus_WriteSingle dev reg_addr val).2 =
      if st ≠ HAL_StatusTypeDef.HAL_OK then some false
      else if resp.getD 1 0 ≠ 0x06 then some false else some true := by
  have hr := RS485_Receive_reply
    (RS485_Send dev.rs485
      ([dev.slave_addr, 0x06, (reg_addr >>> 8) &&& 0xFF, reg_addr &&& 0xFF,
          (val >>> 8) &&& 0xFF, val &&& 0xFF] ++
        [Modbus_CRC16 [dev.slave_addr, 0x06, (reg_addr >>> 8) &&& 0xFF, reg_addr &&& 0xFF,
            (val >>> 8) &&& 0xFF, val &&& 0xFF] &&& 0xFF,
          (Modbus_CRC16 [dev.slave_addr, 0x06, (reg_addr >>> 8) &&& 0xFF, reg_addr &&& 0xFF,
            (val >>> 8) &&& 0xFF, val &&& 0xFF] >>> 8) &&& 0xFF]) 8)
    st resp rest 8 8 200 hrep hlen
  have e1 := rd_written resp (List.replicate (8 - 8) none) 1 (by omega)
  unfold Modbus_WriteSingle
  simp only [hr, le_refl, if_true, e1]
  by_cases hst : st = HAL_StatusTypeDef.HAL_OK
  · by_cases c1 : resp.getD 1 0 = 6
    · simp only [hst, c1, bne_self_eq_false, ne_eq, not_true_eq_false, if_false,
        Bool.false_eq_true]
    · have b1 := bne_iff_ne.mpr c1
      simp only [hst, c1, b1, bne_self_eq_false, ne_eq, not_true_eq_false, if_false,
        Bool.false_eq_true, if_true, not_false_eq_true]
  · have bs := bne_iff_ne.mpr hst
    simp only [hst, bs, ne_eq, if_true, not_false_eq_true]


/-! ## The request frames (claims C2 to C5) -/

theorem crc_read_weight_request : Modbus_CRC16 [0x01, 0x03, 0x00, 0x00, 0x00, 0x02] = 0x0BC4 := by
  decide!

/-- C2: the CRC of the six bytes `01 03 00 00 00 02` is the published value
`0x0BC4`, sent as `C4` then `0B`, and the request that `BSQ_ReadWeight`
transmits for slave address 1 is exactly `01 03 00 00 00 02 C4 0B`. -/
theorem read_weight_request_reference_vector (h485 : RS485_Handle_t) (data : BSQ_Data_t) :
    Modbus_CRC16 [0x01, 0x03, 0x00, 0x00, 0x00, 0x02] = 0x0BC4 ∧
      0x0BC4 % 256 = 0xC4 ∧ 0x0BC4 / 256 = 0x0B ∧
      (BSQ_ReadWeight { rs485 := h485, slave_addr := 1 } data).1.rs485.huart.log =
        h485.huart.log ++
          [UartCall.transmit [0x01, 0x03, 0x00, 0x00, 0x00, 0x02, 0xC4, 0x0B] 100,
            UartCall.receive 9 200] := by
  refine ⟨crc_read_weight_request, by decide, by decide, ?_⟩
  have h := Modbus_ReadRegs_log { rs485 := h485, slave_addr := 1 } REG_MEASURE_VAL 2
    (List.replicate 4 none)
  have hc := crc_read_weight_request
  unfold BSQ_ReadWeight
  simp only [REG_MEASURE_VAL] at h ⊢
  rw [h]
  simp only [and_ff_eq_mod, shr8_eq_div]
  simp [hc]

/-- C3: for every slave address and every 16-bit `start_reg` and `reg_count`,
the frame that `Modbus_ReadRegs` transmits is the 8 bytes address, `0x03`,
high and low byte of `start_reg`, high and low byte of `reg_count`, then the
low and the high byte of the CRC of these six bytes. -/
theorem Modbus_ReadRegs_request_frame (dev : BSQ_Device_t) (start_reg reg_count : Nat)
    (out_buf : Buf) (hs : start_reg < 65536) (hr : reg_count < 65536) :
    (Modbus_ReadRegs dev start_reg reg_count out_buf).1.rs485.huart.log =
      dev.rs485.huart.log ++
        [UartCall.transmit
            [dev.slave_addr, 0x03, start_reg / 256, start_reg % 256,
              reg_count / 256, reg_count % 256,
              Modbus_CRC16 [dev.slave_addr, 0x03, start_reg / 256, start_reg % 256,
                reg_count / 256, reg_count % 256] % 256,
              Modbus_CRC16 [dev.slave_addr, 0x03, start_reg / 256, start_reg % 256,
                reg_count / 256, reg_count % 256] / 256] 100,
          UartCall.receive ((5 + reg_count * 2) % 65536) 200] := by
  rw [Modbus_ReadRegs_log, crc_lo_byte, crc_hi_byte, hi_byte_of_lt start_reg hs,
    hi_byte_of_lt reg_count hr, and_ff_eq_mod, and_ff_eq_mod]

/-- C3 at slave address 1, start register 0 and 2 registers. -/
theorem Modbus_ReadRegs_request_frame_witness :
    (Modbus_ReadRegs (deviceOn 1 []) 0 2 []).1.rs485.huart.log =
      (deviceOn 1 []).rs485.huart.log ++
        [UartCall.transmit
            [(deviceOn 1 []).slave_addr, 0x03, 0 / 256, 0 % 256, 2 / 256, 2 % 256,
              Modbus_CRC16 [(deviceOn 1 []).slave_addr, 0x03, 0 / 256, 0 % 256,
                2 / 256, 2 % 256] % 256,
              Modbus_CRC16 [(deviceOn 1 []).slave_addr, 0x03, 0 / 256, 0 % 256,
                2 / 256, 2 % 256] / 256] 100,
          UartCall.receive ((5 + 2 * 2) % 65536) 200] :=
  Modbus_ReadRegs_request_frame (deviceOn 1 []) 0 2 [] (by decide) (by decide)

/-- C4: for every slave address and every 16-bit `reg_addr` and `val`, the
frame that `Modbus_WriteSingle` transmits is the 8 bytes address, `0x06`,
high and low byte of `reg_addr`, high and low byte of `val`, then the low and
the high byte of the CRC of these six bytes. -/
theorem Modbus_WriteSingle_request_frame (dev : BSQ_Device_t) (reg_addr val : Nat)
    (ha : reg_addr < 65536) (hv : val < 65536) :
    (Modbus_WriteSingle dev reg_addr val).1.rs485.huart.log =
      dev.rs485.huart.log ++
        [UartCall.transmit
            [dev.slave_addr, 0x06, reg_addr / 256, reg_addr % 256, val / 256, val % 256,
              Modbus_CRC16 [dev.slave_addr, 0x06, reg_addr / 256, reg_addr % 256,
                val / 256, val % 256] % 256,
              Modbus_CRC16 [dev.slave_addr, 0x06, reg_addr / 256, reg_addr % 256,
                val / 256, val % 256] / 256] 100,
          UartCall.receive 8 200] := by
  rw [Modbus_WriteSingle_log, crc_lo_byte, crc_hi_byte, hi_byte_of_lt reg_addr ha,
    hi_byte_of_lt val hv, and_ff_eq_mod, and_ff_eq_mod]

/-- C4 at slave address 1, register `0x0011` and value `0x0001`. -/
theorem Modbus_WriteSingle_request_frame_witness :
    (Modbus_WriteSingle (deviceOn 1 []) 0x0011 0x0001).1.rs485.huart.log =
      (deviceOn 1 []).rs485.huart.log ++
        [UartCall.transmit
            [(deviceOn 1 []).slave_addr, 0x06, 0x0011 / 256, 0x0011 % 256,
              0x0001 / 256, 0x0001 % 256,
              Modbus_CRC16 [(deviceOn 1 []).slave_addr, 0x06, 0x0011 / 256, 0x0011 % 256,
                0x0001 / 256, 0x0001 % 256] % 256,
              Modbus_CRC16 [(deviceOn 1 []).slave_addr, 0x06, 0x0011 / 256, 0x0011 % 256,
                0x0001 / 256, 0x0001 % 256] / 256] 100,
          UartCall.receive 8 200] :=
  Modbus_WriteSingle_request_frame (deviceOn 1 []) 0x0011 0x0001 (by decide) (by decide)

/-- C5: for every device, `BSQ_Tare` transmits the write frame for register
`0x0011` with value `0x0001`, `BSQ_Zero` the write frame for register `0x0016`
with value `0x0011`, and `BSQ_ReadWeight` the read frame for 2 registers
starting at register `0x0000`; each frame ends with the low and the high byte
of the CRC of its first six bytes. -/
theorem device_operations_request_frames (dev : BSQ_Device_t) (data : BSQ_Data_t) :
    (BSQ_Tare dev).1.rs485.huart.log =
        dev.rs485.huart.log ++
          [UartCall.transmit
              [dev.slave_addr, 0x06, 0x00, 0x11, 0x00, 0x01,
                Modbus_CRC16 [dev.slave_addr, 0x06, 0x00, 0x11, 0x00, 0x01] % 256,
                Modbus_CRC16 [dev.slave_addr, 0x06, 0x00, 0x11, 0x00, 0x01] / 256] 100,
            UartCall.receive 8 200] ∧
      (BSQ_Zero dev).1.rs485.huart.log =
        dev.rs485.huart.log ++
          [UartCall.transmit
              [dev.slave_addr, 0x06, 0x00, 0x16, 0x00, 0x11,
                Modbus_CRC16 [dev.slave_addr, 0x06, 0x00, 0x16, 0x00, 0x11] % 256,
                Modbus_CRC16 [dev.slave_addr, 0x06, 0x00, 0x16, 0x00, 0x11] / 256] 100,
            UartCall.receive 8 200] ∧
      (BSQ_ReadWeight dev data).1.rs485.huart.log =
        dev.rs485.huart.log ++
          [UartCall.transmit
              [dev.slave_addr, 0x03, 0x00, 0x00, 0x00, 0x02,
                Modbus_CRC16 [dev.slave_addr, 0x03, 0x00, 0x00, 0x00, 0x02] % 256,
                Modbus_CRC16 [dev.slave_addr, 0x03, 0x00, 0x00, 0x00, 0x02] / 256] 100,
            UartCall.receive 9 200] := by
  refine ⟨?_, ?_, ?_⟩
  · unfold BSQ_Tare
    rw [Modbus_WriteSingle_log, crc_lo_byte, crc_hi_byte]
    rfl
  · unfold BSQ_Zero
    rw [Modbus_WriteSingle_log, crc_lo_byte, crc_hi_byte]
    rfl
  · unfold BSQ_ReadWeight
    simp only []
    rw [Modbus_ReadRegs_log, crc_lo_byte, crc_hi_byte]
    rfl


/-! ## Flipping a bit of the CRC field -/

theorem flipCrcBit_length (frame : List Nat) (k : Nat) :
    (flipCrcBit frame k).length = frame.length := by
  unfold flipCrcBit
  split <;> simp

theorem flipCrcBit_getD_of_lt (frame : List Nat) (k i : Nat) (hi : i + 2 < frame.length) :
    (flipCrcBit frame k).getD i 0 = frame.getD i 0 := by
  unfold flipCrcBit
  simp only [List.getD_eq_getElem?_getD]
  split
  · rw [List.getElem?_set_ne (by omega)]
  · rw [List.getElem?_set_ne (by omega)]

/-! ## The write response (claims C9 and C10) -/

/-- C9, counterexample: the tare response `01 06 00 11 00 01 18 0F` of slave
1 is correctly framed (function code `0x06`, CRC field equal to the CRC of
the six bytes before it); with bit 0 of its CRC field flipped the frame is
`01 06 00 11 00 01 19 0F`, and `Modbus_WriteSingle`, `BSQ_Tare` still return
true on it. -/
theorem write_response_crc_flip_accepted :
    [0x01, 0x06, 0x00, 0x11, 0x00, 0x01, 0x18, 0x0F].getD 1 0 = 0x06 ∧
      frameCrc [0x01, 0x06, 0x00, 0x11, 0x00, 0x01, 0x18, 0x0F] =
        Modbus_CRC16 (frameBody [0x01, 0x06, 0x00, 0x11, 0x00, 0x01, 0x18, 0x0F]) ∧
      flipCrcBit [0x01, 0x06, 0x00, 0x11, 0x00, 0x01, 0x18, 0x0F] 0 =
        [0x01, 0x06, 0x00, 0x11, 0x00, 0x01, 0x19, 0x0F] ∧
      (Modbus_WriteSingle
          (deviceOn 1 [(HAL_StatusTypeDef.HAL_OK,
            flipCrcBit [0x01, 0x06, 0x00, 0x11, 0x00, 0x01, 0x18, 0x0F] 0)])
          REG_TARE 0x0001).2 = some true ∧
      (BSQ_Tare
          (deviceOn 1 [(HAL_StatusTypeDef.HAL_OK,
            flipCrcBit [0x01, 0x06, 0x00, 0x11, 0x00, 0x01, 0x18, 0x0F] 0)])).2 = some true := by
  decide!

/-- C9, amended: for every 8-byte write response with function code `0x06`
(correctly framed or not) and every bit `k` of its CRC field, the response
with that bit flipped, delivered with `HAL_OK`, is accepted all the same:
`Modbus_WriteSingle`, `BSQ_Tare` and `BSQ_Zero` return true, because the
validation of the write response reads the function code only. -/
theorem Modbus_WriteSingle_ignores_crc_flip (dev : BSQ_Device_t) (reg_addr val : Nat)
    (resp : List Nat) (rest : List (HAL_StatusTypeDef × List Nat)) (k : Nat)
    (hlen : resp.length = 8) (hfc : resp.getD 1 0 = 0x06)
    (hrep : dev.rs485.huart.replies = (HAL_StatusTypeDef.HAL_OK, flipCrcBit resp k) :: rest) :
    (Modbus_WriteSingle dev reg_addr val).2 = some true ∧
      (BSQ_Tare dev).2 = some true ∧ (BSQ_Zero dev).2 = some true := by
  have hl : (flipCrcBit resp k).length = 8 := by rw [flipCrcBit_length, hlen]
  have h1 : (flipCrcBit resp k).getD 1 0 = 0x06 := by
    rw [flipCrcBit_getD_of_lt resp k 1 (by omega), hfc]
  have key : ∀ r v, (Modbus_WriteSingle dev r v).2 = some true := by
    intro r v
    rw [Modbus_WriteSingle_value dev r v _ _ rest hrep hl, h1]
    simp
  exact ⟨key _ _, key _ _, key _ _⟩

/-- C9, amended, at the tare response of slave 1 with bit 9 of its CRC field
flipped. -/
theorem Modbus_WriteSingle_ignores_crc_flip_witness :
    (Modbus_WriteSingle
        (deviceOn 1 [(HAL_StatusTypeDef.HAL_OK,
          flipCrcBit [0x01, 0x06, 0x00, 0x11, 0x00, 0x01, 0x18, 0x0F] 9)])
        REG_TARE 0x0001).2 = some true ∧
      (BSQ_Tare
        (deviceOn 1 [(HAL_StatusTypeDef.HAL_OK,
          flipCrcBit [0x01, 0x06, 0x00, 0x11, 0x00, 0x01, 0x18, 0x0F] 9)])).2 = some true ∧
      (BSQ_Zero
        (deviceOn 1 [(HAL_StatusTypeDef.HAL_OK,
          flipCrcBit [0x01, 0x06, 0x00, 0x11, 0x00, 0x01, 0x18, 0x0F] 9)])).2 = some true :=
  Modbus_WriteSingle_ignores_crc_flip
    (deviceOn 1 [(HAL_StatusTypeDef.HAL_OK,
      flipCrcBit [0x01, 0x06, 0x00, 0x11, 0x00, 0x01, 0x18, 0x0F] 9)])
    REG_TARE 0x0001 [0x01, 0x06, 0x00, 0x11, 0x00, 0x01, 0x18, 0x0F] [] 9 rfl rfl rfl

/-- C10: for every 8-byte response delivered with `HAL_OK`, the outcome of
`Modbus_WriteSingle`, and so of `BSQ_Tare` and `BSQ_Zero`, is decided by byte
1 of the response alone: the call returns false if and only if byte 1 is not
`0x06` and returns true otherwise.  The address byte and the CRC bytes have
no influence: any other 8-byte response with the same byte 1, delivered to
any device, gives the same outcome. -/
theorem Modbus_WriteSingle_checks_function_code_only (dev dev2 : BSQ_Device_t)
    (reg_addr val : Nat) (resp resp2 : List Nat)
    (rest rest2 : List (HAL_StatusTypeDef × List Nat))
    (hlen : resp.length = 8)
    (hrep : dev.rs485.huart.replies = (HAL_StatusTypeDef.HAL_OK, resp) :: rest)
    (hlen2 : resp2.length = 8)
    (hrep2 : dev2.rs485.huart.replies = (HAL_StatusTypeDef.HAL_OK, resp2) :: rest2) :
    ((Modbus_WriteSingle dev reg_addr val).2 = some false ↔ resp.getD 1 0 ≠ 0x06) ∧
      ((Modbus_WriteSingle dev reg_addr val).2 = some true ↔ resp.getD 1 0 = 0x06) ∧
      ((BSQ_Tare dev).2 = some false ↔ resp.getD 1 0 ≠ 0x06) ∧
      ((BSQ_Tare dev).2 = some true ↔ resp.getD 1 0 = 0x06) ∧
      ((BSQ_Zero dev).2 = some false ↔ resp.getD 1 0 ≠ 0x06) ∧
      ((BSQ_Zero dev).2 = some true ↔ resp.getD 1 0 = 0x06) ∧
      (resp2.getD 1 0 = resp.getD 1 0 →
        (Modbus_WriteSingle dev2 reg_addr val).2 = (Modbus_WriteSingle dev reg_addr val).2) := by
  have key : ∀ r v, ((Modbus_WriteSingle dev r v).2 = some false ↔ resp.getD 1 0 ≠ 0x06) ∧
      ((Modbus_WriteSingle dev r v).2 = some true ↔ resp.getD 1 0 = 0x06) := by
    intro r v
    rw [Modbus_WriteSingle_value dev r v _ _ rest hrep hlen]
    by_cases c1 : resp.getD 1 0 = 0x06
    · simp only [c1, ne_eq, not_true_eq_false, if_false]
      exact ⟨by decide, by decide⟩
    · simp only [c1, ne_eq, not_true_eq_false, not_false_eq_true, if_true, if_false]
      exact ⟨by decide, by decide⟩
  refine ⟨(key _ _).1, (key _ _).2, (key _ _).1, (key _ _).2, (key _ _).1, (key _ _).2, ?_⟩
  intro hsame
  rw [Modbus_WriteSingle_value dev reg_addr val _ _ rest hrep hlen,
    Modbus_WriteSingle_value dev2 reg_addr val _ _ rest2 hrep2 hlen2, hsame]

/-- C10 at two responses to the zero command that share byte 1 and differ in
the address byte and in the CRC bytes. -/
theorem Modbus_WriteSingle_checks_function_code_only_witness :
    ((Modbus_WriteSingle
          (deviceOn 1 [(HAL_StatusTypeDef.HAL_OK, [0x01, 0x06, 0, 0x16, 0, 0x11, 0xA8, 0x02])])
          REG_ZERO 0x0011).2 = some false ↔
        [0x01, 0x06, 0, 0x16, 0, 0x11, 0xA8, 0x02].getD 1 0 ≠ 0x06) ∧
      ((Modbus_WriteSingle
          (deviceOn 1 [(HAL_StatusTypeDef.HAL_OK, [0x01, 0x06, 0, 0x16, 0, 0x11, 0xA8, 0x02])])
          REG_ZERO 0x0011).2 = some true ↔
        [0x01, 0x06, 0, 0x16, 0, 0x11, 0xA8, 0x02].getD 1 0 = 0x06) ∧
      ((BSQ_Tare
          (deviceOn 1 [(HAL_StatusTypeDef.HAL_OK, [0x01, 0x06, 0, 0x16, 0, 0x11, 0xA8, 0x02])])).2
            = some false ↔
        [0x01, 0x06, 0, 0x16, 0, 0x11, 0xA8, 0x02].getD 1 0 ≠ 0x06) ∧
      ((BSQ_Tare
          (deviceOn 1 [(HAL_StatusTypeDef.HAL_OK, [0x01, 0x06, 0, 0x16, 0, 0x11, 0xA8, 0x02])])).2
            = some true ↔
        [0x01, 0x06, 0, 0x16, 0, 0x11, 0xA8, 0x02].getD 1 0 = 0x06) ∧
      ((BSQ_Zero
          (deviceOn 1 [(HAL_StatusTypeDef.HAL_OK, [0x01, 0x06, 0, 0x16, 0, 0x11, 0xA8, 0x02])])).2
            = some false ↔
        [0x01, 0x06, 0, 0x16, 0, 0x11, 0xA8, 0x02].getD 1 0 ≠ 0x06) ∧
      ((BSQ_Zero
          (deviceOn 1 [(HAL_StatusTypeDef.HAL_OK, [0x01, 0x06, 0, 0x16, 0, 0x11, 0xA8, 0x02])])).2
            = some true ↔
        [0x01, 0x06, 0, 0x16, 0, 0x11, 0xA8, 0x02].getD 1 0 = 0x06) ∧
      ([0x09, 0x06, 0, 0, 0, 0, 0, 0].getD 1 0 =
          [0x01, 0x06, 0, 0x16, 0, 0x11, 0xA8, 0x02].getD 1 0 →
        (Modbus_WriteSingle
            (deviceOn 1 [(HAL_StatusTypeDef.HAL_OK, [0x09, 0x06, 0, 0, 0, 0, 0, 0])])
            REG_ZERO 0x0011).2 =
          (Modbus_WriteSingle
            (deviceOn 1 [(HAL_StatusTypeDef.HAL_OK,
              [0x01, 0x06, 0, 0x16, 0, 0x11, 0xA8, 0x02])])
            REG_ZERO 0x0011).2) :=
  Modbus_WriteSingle_checks_function_code_only
    (deviceOn 1 [(HAL_StatusTypeDef.HAL_OK, [0x01, 0x06, 0, 0x16, 0, 0x11, 0xA8, 0x02])])
    (deviceOn 1 [(HAL_StatusTypeDef.HAL_OK, [0x09, 0x06, 0, 0, 0, 0, 0, 0])])
    REG_ZERO 0x0011 [0x01, 0x06, 0, 0x16, 0, 0x11, 0xA8, 0x02] [0x09, 0x06, 0, 0, 0, 0, 0, 0]
    [] [] rfl rfl rfl rfl

/-! ## The copy loop -/

theorem copyOut_append (rx : Buf) (vals : List Nat) :
    ∀ (i : Nat) (pre mid post : Buf), pre.length = i → mid.length = vals.length →
      (∀ j, j < vals.length → rd rx (3 + i + j) = some (vals.getD j 0)) →
      copyOut rx vals.length i (pre ++ mid ++ post) = some (pre ++ vals.map some ++ post) := by
  induction vals with
  | nil =>
    intro i pre mid post _ hmid _
    have : mid = [] := List.length_eq_zero.mp hmid
    subst this
    simp [copyOut]
  | cons v vs ih =>
    intro i pre mid post hpre hmid hrd
    cases mid with
    | nil => simp at hmid
    | cons m ms =>
      have hms : ms.length = vs.length := by simpa using hmid
      have h0 : rd rx (3 + i) = some v := by
        have := hrd 0 (by simp)
        simpa using this
      have hw : wr (pre ++ m :: ms ++ post) i v = some ((pre ++ [some v]) ++ ms ++ post) := by
        unfold wr
        have hlt : i < (pre ++ m :: ms ++ post).length := by
          simp
          omega
        rw [if_pos hlt]
        subst hpre
        simp [List.set_append]
      have hrd2 : ∀ j, j < vs.length → rd rx (3 + (i + 1) + j) = some (vs.getD j 0) := by
        intro j hj
        have := hrd (j + 1) (by simpa using hj)
        have e : 3 + i + (j + 1) = 3 + (i + 1) + j := by omega
        rw [e] at this
        simpa using this
      have := ih (i + 1) (pre ++ [some v]) ms post (by simp [hpre]) hms hrd2
      simp only [List.length_cons, copyOut, h0, hw, this]
      simp

theorem copyOut_written (resp : List Nat) (tail out : Buf) (n : Nat)
    (hin : 3 + n ≤ resp.length) (hout : n ≤ out.length) :
    copyOut (resp.map some ++ tail) n 0 out =
      some (((resp.drop 3).take n).map some ++ out.drop n) := by
  have hl : ((resp.drop 3).take n).length = n := by
    rw [List.length_take, List.length_drop]
    omega
  have h := copyOut_append (resp.map some ++ tail) ((resp.drop 3).take n) 0 []
    (out.take n) (out.drop n) rfl (by rw [hl, List.length_take]; omega)
    (by
      intro j hj
      rw [hl] at hj
      rw [rd_written resp tail (3 + 0 + j) (by omega)]
      simp only [List.getD_eq_getElem?_getD, List.getElem?_take, List.getElem?_drop, hj,
        if_true])
  rw [hl] at h
  simpa using h


/-! ## The read response -/

theorem getD_lt_of_bytes (frame : List Nat) (hb : ∀ b ∈ frame, b < 256) (i : Nat) :
    frame.getD i 0 < 256 := by
  rw [List.getD_eq_getElem?_getD]
  by_cases hi : i < frame.length
  · rw [List.getElem?_eq_getElem hi]
    exact hb _ (List.getElem_mem hi)
  · rw [List.getElem?_eq_none (by omega)]
    decide

theorem recv_crc_eq_frameCrc (frame : List Nat) (hb : ∀ b ∈ frame, b < 256) :
    (frame.getD (frame.length - 2) 0 ||| (frame.getD (frame.length - 1) 0 <<< 8)) % 65536 =
      frameCrc frame := by
  have hlo := getD_lt_of_bytes frame hb (frame.length - 2)
  have hhi := getD_lt_of_bytes frame hb (frame.length - 1)
  unfold frameCrc
  rw [or_shl8_eq_add _ _ hlo]
  omega

theorem Modbus_ReadRegs_HAL_OK (dev : BSQ_Device_t) (start_reg reg_count : Nat) (out_buf : Buf)
    (resp : List Nat) (rest : List (HAL_StatusTypeDef × List Nat))
    (hrep : dev.rs485.huart.replies = (HAL_StatusTypeDef.HAL_OK, resp) :: rest)
    (hlen : resp.length = (5 + reg_count * 2) % 65536)
    (h3 : 3 ≤ resp.length) (h32 : resp.length ≤ 32) (hb : ∀ b ∈ resp, b < 256) :
    (Modbus_ReadRegs dev start_reg reg_count out_buf).2 =
      if resp.getD 0 0 ≠ dev.slave_addr then some (false, out_buf)
      else if resp.getD 1 0 ≠ 0x03 then some (false, out_buf)
      else if Modbus_CRC16 (frameBody resp) ≠ frameCrc resp then some (false, out_buf)
      else (copyOut (resp.map some ++ List.replicate (32 - resp.length) none)
        (resp.getD 2 0) 0 out_buf).map (fun o => (true, o)) := by
  rw [Modbus_ReadRegs_value dev start_reg reg_count out_buf _ resp rest hrep hlen, if_pos h32,
    if_neg (by simp), readRegsCheck_written _ _ _ _ h3 (by omega), recv_crc_eq_frameCrc resp hb]
  rfl


theorem readResponse_length (a : Nat) (payload : List Nat) :
    (readResponse a payload).length = payload.length + 5 := by
  simp [readResponse]

theorem readResponse_body (a : Nat) (payload : List Nat) :
    (readResponse a payload).take ((readResponse a payload).length - 2) =
      [a, 0x03, payload.length] ++ payload := by
  rw [readResponse_length]
  unfold readResponse
  have hl : payload.length + 5 - 2 = ([a, 0x03, payload.length] ++ payload).length := by
    simp
  rw [hl, List.take_left]

theorem readResponse_header (a : Nat) (payload : List Nat) :
    (readResponse a payload).getD 0 0 = a ∧ (readResponse a payload).getD 1 0 = 0x03 ∧
      (readResponse a payload).getD 2 0 = payload.length := by
  simp [readResponse]

theorem readResponse_crc_field (a : Nat) (payload : List Nat) :
    (readResponse a payload).getD ((readResponse a payload).length - 2) 0 =
        Modbus_CRC16 ([a, 0x03, payload.length] ++ payload) % 256 ∧
      (readResponse a payload).getD ((readResponse a payload).length - 1) 0 =
        Modbus_CRC16 ([a, 0x03, payload.length] ++ payload) / 256 := by
  rw [readResponse_length]
  unfold readResponse
  simp only [List.getD_eq_getElem?_getD]
  constructor
  · rw [List.getElem?_append_right (by simp)]
    have : payload.length + 5 - 2 - ([a, 3, payload.length] ++ payload).length = 0 := by
      simp
    rw [this]
    rfl
  · rw [List.getElem?_append_right (by simp)]
    have : payload.length + 5 - 1 - ([a, 3, payload.length] ++ payload).length = 1 := by
      simp
    rw [this]
    rfl

theorem readResponse_data (a : Nat) (payload : List Nat) :
    ((readResponse a payload).drop 3).take payload.length = payload := by
  unfold readResponse
  simp

theorem crc_field_round_trip (c : Nat) (hc : c < 65536) :
    (c % 256 ||| ((c / 256) <<< 8)) % 65536 = c := by
  rw [or_shl8_eq_add _ _ (Nat.mod_lt _ (by decide))]
  omega


/-! ## Validation of the read response (claims C6 to C8) -/

/-- C7, counterexample: 14 registers is a valid Modbus count and slave 1 a
valid address, but the correctly framed answer with 28 data bytes has 33
bytes, one more than `rx_buf` holds: `Modbus_ReadRegs` has no defined outcome
and does not return the payload. -/
theorem Modbus_ReadRegs_round_trip_fails_at_14 :
    (1 ≤ 1 ∧ 1 ≤ 247) ∧ (1 ≤ 14 ∧ 14 ≤ 125) ∧
      (List.replicate 28 0x5A).length = 2 * 14 ∧
      (Modbus_ReadRegs
          (deviceOn 1 [(HAL_StatusTypeDef.HAL_OK, readResponse 1 (List.replicate 28 0x5A))])
          REG_MEASURE_VAL 14 (List.replicate 28 none)).2 = none := by
  decide!

/-- C7, amended: round trip of the read path for every slave address, every
`start_reg` and every `reg_count` from 0 to 13 (the counts whose response
fits the 32 cells of `rx_buf`): when the transport answers with the frame
address, `0x03`, byte count `2 * reg_count`, the payload, CRC low, CRC high,
`Modbus_ReadRegs` returns true and the first `2 * reg_count` cells of the
output array hold the payload bytes in order (further cells are unchanged). -/
theorem Modbus_ReadRegs_round_trip (dev : BSQ_Device_t) (start_reg reg_count : Nat)
    (out_buf : Buf) (payload : List Nat) (rest : List (HAL_StatusTypeDef × List Nat))
    (hcap : reg_count ≤ 13) (hp : payload.length = 2 * reg_count)
    (hout : 2 * reg_count ≤ out_buf.length)
    (hrep : dev.rs485.huart.replies =
      (HAL_StatusTypeDef.HAL_OK, readResponse dev.slave_addr payload) :: rest) :
    (Modbus_ReadRegs dev start_reg reg_count out_buf).2 =
      some (true, payload.map some ++ out_buf.drop (2 * reg_count)) := by
  have hn := readResponse_length dev.slave_addr payload
  have hl : (readResponse dev.slave_addr payload).length = (5 + reg_count * 2) % 65536 := by
    omega
  obtain ⟨g0, g1, g2⟩ := readResponse_header dev.slave_addr payload
  obtain ⟨glo, ghi⟩ := readResponse_crc_field dev.slave_addr payload
  rw [Modbus_ReadRegs_value dev start_reg reg_count out_buf _ _ rest hrep hl,
    if_pos (by omega), if_neg (by simp),
    readRegsCheck_written _ _ _ _ (by omega) (by omega),
    readResponse_body, g0, g1, g2, glo, ghi,
    crc_field_round_trip _ (Modbus_CRC16_lt _),
    copyOut_written _ _ out_buf _ (by omega) (by omega), readResponse_data, hp]
  simp

/-- C7, amended, at slave address 1, two registers and the payload
`00 96 00 01`. -/
theorem Modbus_ReadRegs_round_trip_witness :
    (Modbus_ReadRegs
        (deviceOn 1 [(HAL_StatusTypeDef.HAL_OK,
          readResponse (deviceOn 1 []).slave_addr [0x00, 0x96, 0x00, 0x01])])
        REG_MEASURE_VAL 2 (List.replicate 4 none)).2 =
      some (true, [0x00, 0x96, 0x00, 0x01].map some ++ (List.replicate 4 none).drop (2 * 2)) :=
  Modbus_ReadRegs_round_trip
    (deviceOn 1 [(HAL_StatusTypeDef.HAL_OK,
      readResponse (deviceOn 1 []).slave_addr [0x00, 0x96, 0x00, 0x01])])
    REG_MEASURE_VAL 2 (List.replicate 4 none) [0x00, 0x96, 0x00, 0x01] []
    (by decide) rfl (by decide) rfl


theorem flipCrcBit_bytes (frame : List Nat) (k : Nat) (hk : k < 16)
    (hb : ∀ b ∈ frame, b < 256) : ∀ b ∈ flipCrcBit frame k, b < 256 := by
  intro b hmem
  unfold flipCrcBit at hmem
  split at hmem
  · rcases List.mem_or_eq_of_mem_set hmem with h | h
    · exact hb b h
    · rw [h]
      exact Nat.xor_lt_two_pow (n := 8) (getD_lt_of_bytes frame hb _)
        (Nat.pow_lt_pow_right (by decide) (by omega))
  · rcases List.mem_or_eq_of_mem_set hmem with h | h
    · exact hb b h
    · rw [h]
      exact Nat.xor_lt_two_pow (n := 8) (getD_lt_of_bytes frame hb _)
        (Nat.pow_lt_pow_right (by decide) (by omega))

theorem flipCrcBit_body (frame : List Nat) (k : Nat) :
    frameBody (flipCrcBit frame k) = frameBody frame := by
  unfold frameBody
  rw [flipCrcBit_length]
  unfold flipCrcBit
  split
  · rw [List.set_take, List.set_eq_of_length_le (by simp)]
  · rw [List.set_take, List.set_eq_of_length_le (by simp; omega)]

theorem xor_two_pow_ne (x j : Nat) : x ^^^ 2 ^ j ≠ x := by
  intro h
  have h2 : x ^^^ (x ^^^ 2 ^ j) = 2 ^ j := Nat.xor_cancel_left x (2 ^ j)
  rw [h, Nat.xor_self] at h2
  have : 0 < 2 ^ j := Nat.two_pow_pos j
  omega

theorem flipCrcBit_crc (frame : List Nat) (k : Nat) (h2 : 2 ≤ frame.length) :
    frameCrc (flipCrcBit frame k) ≠ frameCrc frame := by
  unfold frameCrc
  rw [flipCrcBit_length]
  unfold flipCrcBit
  simp only [List.getD_eq_getElem?_getD]
  split
  · rw [List.getElem?_set_self (by omega), List.getElem?_set_ne (by omega)]
    have := xor_two_pow_ne ((frame[frame.length - 2]?).getD 0) k
    simp only [Option.getD_some]
    omega
  · rw [List.getElem?_set_self (by omega), List.getElem?_set_ne (by omega)]
    have := xor_two_pow_ne ((frame[frame.length - 1]?).getD 0) (k - 8)
    simp only [Option.getD_some]
    omega

theorem readRegsCheck_short (a n : Nat) (rx out o : Buf) (h1 : rd rx 1 = none) :
    readRegsCheck a n rx out ≠ some (true, o) := by
  unfold readRegsCheck
  cases h0 : rd rx 0 with
  | none => simp
  | some b0 =>
    simp only [h1]
    split <;> simp

/-- C8: for every read response of the length that `Modbus_ReadRegs` asks
for, made of bytes, that `Modbus_ReadRegs` accepts (it returns true), and for
every bit `k` of the two-byte CRC field, the same response with that bit
flipped is rejected: `Modbus_ReadRegs` returns false and leaves the output
array untouched. -/
theorem Modbus_ReadRegs_rejects_crc_flip (dev dev2 : BSQ_Device_t)
    (start_reg reg_count : Nat) (out_buf out : Buf) (resp : List Nat)
    (rest rest2 : List (HAL_StatusTypeDef × List Nat)) (k : Nat) (hk : k < 16)
    (hlen : resp.length = (5 + reg_count * 2) % 65536) (hb : ∀ b ∈ resp, b < 256)
    (hrep : dev.rs485.huart.replies = (HAL_StatusTypeDef.HAL_OK, resp) :: rest)
    (hacc : (Modbus_ReadRegs dev start_reg reg_count out_buf).2 = some (true, out))
    (hrep2 : dev2.rs485.huart.replies =
      (HAL_StatusTypeDef.HAL_OK, flipCrcBit resp k) :: rest2) :
    (Modbus_ReadRegs dev2 start_reg reg_count out_buf).2 = some (false, out_buf) := by
  have hv := Modbus_ReadRegs_value dev start_reg reg_count out_buf _ resp rest hrep hlen
  have h32 : resp.length ≤ 32 := by
    by_contra hgt
    rw [hv, if_neg hgt] at hacc
    exact Option.noConfusion hacc
  have h3 : 3 ≤ resp.length := by
    by_contra hlt
    have h1 : resp.length = 1 := by omega
    rw [hv, if_pos h32, if_neg (by simp)] at hacc
    exact readRegsCheck_short _ _ _ _ _ (rd_unwritten resp _ 1 (by omega)) hacc
  rw [Modbus_ReadRegs_HAL_OK dev start_reg reg_count out_buf resp rest hrep hlen h3 h32 hb]
    at hacc
  have c2 : Modbus_CRC16 (frameBody resp) = frameCrc resp := by
    by_contra hne
    by_cases c0 : resp.getD 0 0 = dev.slave_addr
    · by_cases c1 : resp.getD 1 0 = 0x03
      · simp only [c0, c1, hne, ne_eq, not_true_eq_false, if_false, not_false_eq_true,
          if_true] at hacc
        simp at hacc
      · simp only [c0, c1, ne_eq, not_true_eq_false, if_false, not_false_eq_true,
          if_true] at hacc
        simp at hacc
    · simp only [c0, ne_eq, not_false_eq_true, if_true] at hacc
      simp at hacc
  have hl2 : (flipCrcBit resp k).length = (5 + reg_count * 2) % 65536 := by
    rw [flipCrcBit_length, hlen]
  have hne : Modbus_CRC16 (frameBody (flipCrcBit resp k)) ≠ frameCrc (flipCrcBit resp k) := by
    rw [flipCrcBit_body, c2]
    exact fun h => flipCrcBit_crc resp k (by omega) h.symm
  rw [Modbus_ReadRegs_HAL_OK dev2 start_reg reg_count out_buf _ rest2 hrep2 hl2
    (by rw [flipCrcBit_length]; exact h3) (by rw [flipCrcBit_length]; exact h32)
    (flipCrcBit_bytes resp k hk hb)]
  by_cases d0 : (flipCrcBit resp k).getD 0 0 = dev2.slave_addr
  · by_cases d1 : (flipCrcBit resp k).getD 1 0 = 0x03
    · simp only [d0, d1, hne, ne_eq, not_true_eq_false, if_false, not_false_eq_true, if_true]
    · simp only [d0, d1, ne_eq, not_true_eq_false, if_false, not_false_eq_true, if_true]
  · simp only [d0, ne_eq, not_false_eq_true, if_true]

/-- C8 at the example response with bit 11 of its CRC field flipped. -/
theorem Modbus_ReadRegs_rejects_crc_flip_witness :
    (Modbus_ReadRegs (deviceOn 1 [(HAL_StatusTypeDef.HAL_OK, flipCrcBit exampleResponse 11)])
      REG_MEASURE_VAL 2 (List.replicate 4 none)).2 = some (false, List.replicate 4 none) :=
  Modbus_ReadRegs_rejects_crc_flip exampleDevice
    (deviceOn 1 [(HAL_StatusTypeDef.HAL_OK, flipCrcBit exampleResponse 11)])
    REG_MEASURE_VAL 2 (List.replicate 4 none) [some 0x00, some 0x96, some 0x00, some 0x01]
    exampleResponse [] [] 11 (by decide) rfl (by decide) rfl (by decide!) rfl


/-! ## Single-precision division: the rounding error -/

theorem roundHalfEven_one (n : Nat) : roundHalfEven n 1 = n := by
  unfold roundHalfEven
  simp [Nat.mod_one]

theorem roundHalfEven_near (n d : Nat) (hd : 0 < d) :
    2 * (roundHalfEven n d * d) ≤ 2 * n + d ∧ 2 * n ≤ 2 * (roundHalfEven n d * d) + d := by
  have hdm := Nat.div_add_mod n d
  have hr := Nat.mod_lt n hd
  have e1 : (n / d + 1) * d = d * (n / d) + d := by ring
  have e0 : n / d * d = d * (n / d) := Nat.mul_comm _ _
  unfold roundHalfEven
  split
  · rw [e0]
    omega
  · split
    · rw [e1]
      omega
    · split
      · rw [e0]
        omega
      · rw [e1]
        omega

theorem floorLog2_scale (n d : Nat) (hn : 0 < n) (hd : 0 < d) (hlt : n < 2 ^ 24 * d) :
    0 ≤ 23 - floorLog2 n d ∧ 2 ^ 23 * d ≤ n * 2 ^ (23 - floorLog2 n d).toNat := by
  have hna : 2 ^ Nat.log2 n ≤ n := Nat.log2_self_le (by omega)
  have hnb : n < 2 ^ (Nat.log2 n + 1) := Nat.lt_log2_self
  have hda : 2 ^ Nat.log2 d ≤ d := Nat.log2_self_le (by omega)
  have hdb : d < 2 ^ (Nat.log2 d + 1) := Nat.lt_log2_self
  have hpa : 0 < 2 ^ Nat.log2 n := Nat.two_pow_pos _
  -- the exponent of n is below 25 + the exponent of d
  have hexp : Nat.log2 n < 25 + Nat.log2 d := by
    have h1 : 2 ^ Nat.log2 n < 2 ^ (25 + Nat.log2 d) := by
      calc 2 ^ Nat.log2 n ≤ n := hna
        _ < 2 ^ 24 * d := hlt
        _ < 2 ^ 24 * 2 ^ (Nat.log2 d + 1) := Nat.mul_lt_mul_of_pos_left hdb (by decide)
        _ = 2 ^ (25 + Nat.log2 d) := by rw [← pow_add]; congr 1; omega
    exact (Nat.pow_lt_pow_iff_right (by decide)).mp h1
  unfold floorLog2
  split
  · rename_i hc
    -- quotient at least 2 ^ (a - b)
    have hexp2 : Nat.log2 n < 24 + Nat.log2 d := by
      have h1 : 2 ^ Nat.log2 n * d < 2 ^ (24 + Nat.log2 d) * d := by
        calc 2 ^ Nat.log2 n * d = d * 2 ^ Nat.log2 n := Nat.mul_comm _ _
          _ ≤ n * 2 ^ Nat.log2 d := hc
          _ < 2 ^ 24 * d * 2 ^ Nat.log2 d :=
            Nat.mul_lt_mul_of_pos_right hlt (Nat.two_pow_pos _)
          _ = 2 ^ (24 + Nat.log2 d) * d := by rw [pow_add]; ring
      have h2 : 2 ^ Nat.log2 n < 2 ^ (24 + Nat.log2 d) := Nat.lt_of_mul_lt_mul_right h1
      exact (Nat.pow_lt_pow_iff_right (by decide)).mp h2
    refine ⟨by omega, ?_⟩
    have hK : (23 - ((Nat.log2 n : Int) - (Nat.log2 d : Int))).toNat + Nat.log2 n =
        23 + Nat.log2 d := by omega
    apply Nat.le_of_mul_le_mul_right _ hpa
    calc 2 ^ 23 * d * 2 ^ Nat.log2 n = 2 ^ 23 * (d * 2 ^ Nat.log2 n) := by ring
      _ ≤ 2 ^ 23 * (n * 2 ^ Nat.log2 d) := Nat.mul_le_mul_left _ hc
      _ = n * 2 ^ (23 + Nat.log2 d) := by rw [pow_add]; ring
      _ = n * 2 ^ ((23 - ((Nat.log2 n : Int) - (Nat.log2 d : Int))).toNat + Nat.log2 n) := by
        rw [hK]
      _ = n * 2 ^ (23 - ((Nat.log2 n : Int) - (Nat.log2 d : Int))).toNat * 2 ^ Nat.log2 n := by
        rw [pow_add]; ring
  · refine ⟨by omega, ?_⟩
    have hK : (23 - ((Nat.log2 n : Int) - (Nat.log2 d : Int) - 1)).toNat + Nat.log2 n =
        24 + Nat.log2 d := by omega
    apply Nat.le_of_mul_le_mul_right _ hpa
    calc 2 ^ 23 * d * 2 ^ Nat.log2 n ≤ 2 ^ 23 * 2 ^ (Nat.log2 d + 1) * 2 ^ Nat.log2 n :=
          Nat.mul_le_mul_right _ (Nat.mul_le_mul_left _ (Nat.le_of_lt hdb))
      _ = 2 ^ Nat.log2 n * 2 ^ (24 + Nat.log2 d) := by
        rw [← pow_add, ← pow_add, ← pow_add]; congr 1; omega
      _ ≤ n * 2 ^ (24 + Nat.log2 d) := Nat.mul_le_mul_right _ hna
      _ = n * 2 ^ ((23 - ((Nat.log2 n : Int) - (Nat.log2 d : Int) - 1)).toNat + Nat.log2 n) := by
        rw [hK]
      _ = n * 2 ^ (23 - ((Nat.log2 n : Int) - (Nat.log2 d : Int) - 1)).toNat *
            2 ^ Nat.log2 n := by
        rw [pow_add]; ring


theorem near_of_scaled (m n d P : ℚ) (hd : 0 < d) (hP : 0 < P)
    (h1 : 2 * (m * d) ≤ 2 * (n * P) + d) (h2 : 2 * (n * P) ≤ 2 * (m * d) + d)
    (h3 : 2 ^ 23 * d ≤ n * P) :
    |m / P - n / d| ≤ n / d / 2 ^ 24 := by
  have hPd : 0 < P * d := mul_pos hP hd
  have key : m / P - n / d = (m * d - n * P) / (P * d) := by
    field_simp
    ring
  have hb : n / d / 2 ^ 24 = (n * P / 2 ^ 24) / (P * d) := by
    field_simp
    ring
  rw [key, hb, abs_div, abs_of_pos hPd]
  apply div_le_div_of_nonneg_right _ (le_of_lt hPd)
  rw [abs_le]
  constructor <;> linarith

theorem roundBinary32_near (n d : Nat) (hn : 0 < n) (hd : 0 < d) (hlt : n < 2 ^ 24 * d) :
    |roundBinary32 n d - (n : ℚ) / (d : ℚ)| ≤ (n : ℚ) / (d : ℚ) / 2 ^ 24 := by
  obtain ⟨hk, hs⟩ := floorLog2_scale n d hn hd hlt
  obtain ⟨r1, r2⟩ := roundHalfEven_near (n * 2 ^ (23 - floorLog2 n d).toNat) d hd
  unfold roundBinary32
  simp only [hk, if_true]
  apply near_of_scaled
  · exact_mod_cast hd
  · exact_mod_cast Nat.two_pow_pos (23 - floorLog2 n d).toNat
  · exact_mod_cast r1
  · exact_mod_cast r2
  · exact_mod_cast hs

theorem floatDiv_near (a : Int) (b : Nat) (hb : 0 < b) (hlt : a.natAbs < 2 ^ 24 * b) :
    |floatDiv a b - (a : ℚ) / (b : ℚ)| ≤ |(a : ℚ) / (b : ℚ)| / 2 ^ 24 := by
  unfold floatDiv
  by_cases h0 : a = 0
  · subst h0
    simp
  · have hbq : (0 : ℚ) < (b : ℚ) := by exact_mod_cast hb
    by_cases hpos : 0 < a
    · have hcast : ((a.natAbs : Nat) : ℚ) = (a : ℚ) := by
        rw [Nat.cast_natAbs, abs_of_pos hpos]
      have h := roundBinary32_near a.natAbs b (by omega) hb hlt
      rw [hcast] at h
      have hq : (0 : ℚ) ≤ (a : ℚ) / (b : ℚ) :=
        div_nonneg (by exact_mod_cast le_of_lt hpos) (le_of_lt hbq)
      rw [if_neg h0, if_pos hpos, abs_of_nonneg hq]
      exact h
    · have hneg : a < 0 := by omega
      have hcast : ((a.natAbs : Nat) : ℚ) = -(a : ℚ) := by
        rw [Nat.cast_natAbs, abs_of_neg hneg, Int.cast_neg]
      have h := roundBinary32_near a.natAbs b (by omega) hb hlt
      rw [hcast] at h
      have hq : (a : ℚ) / (b : ℚ) ≤ 0 :=
        div_nonpos_of_nonpos_of_nonneg (by exact_mod_cast le_of_lt hneg) (le_of_lt hbq)
      rw [if_neg h0, if_neg hpos, abs_of_nonpos hq]
      have e : -roundBinary32 a.natAbs b - (a : ℚ) / (b : ℚ) =
          -(roundBinary32 a.natAbs b - -(a : ℚ) / (b : ℚ)) := by ring
      rw [e, abs_neg]
      have e2 : -((a : ℚ) / (b : ℚ)) = -(a : ℚ) / (b : ℚ) := by ring
      rw [e2]
      exact h

theorem roundBinary32_nat (n : Nat) (hn : 0 < n) (hlt : n < 2 ^ 24) :
    roundBinary32 n 1 = (n : ℚ) := by
  obtain ⟨hk, _⟩ := floorLog2_scale n 1 hn (by decide) (by omega)
  unfold roundBinary32
  simp only [hk, if_true, roundHalfEven_one]
  have hP : ((2 ^ (23 - floorLog2 n 1).toNat : Nat) : ℚ) ≠ 0 := by
    exact_mod_cast (Nat.two_pow_pos _).ne'
  rw [Nat.cast_mul]
  field_simp

theorem floatDiv_one (a : Int) (hlt : a.natAbs < 2 ^ 24) : floatDiv a 1 = (a : ℚ) := by
  unfold floatDiv
  by_cases h0 : a = 0
  · subst h0
    simp
  · by_cases hpos : 0 < a
    · rw [if_neg h0, if_pos hpos, roundBinary32_nat _ (by omega) hlt, Nat.cast_natAbs,
        abs_of_pos hpos]
    · have hneg : a < 0 := by omega
      rw [if_neg h0, if_neg hpos, roundBinary32_nat _ (by omega) hlt, Nat.cast_natAbs,
        abs_of_neg hneg, Int.cast_neg, neg_neg]


/-! ## Decoding of the two registers (claims C11 and C12) -/

theorem shl8_or_eq_be16 (hi lo : Nat) (hlo : lo < 256) : (hi <<< 8) ||| lo = be16 hi lo := by
  rw [Nat.or_comm, or_shl8_eq_add lo hi hlo]
  unfold be16
  omega

theorem toI16_eq_twosComplement16 (v : Nat) (hv : v < 65536) : toI16 v = twosComplement16 v := by
  unfold toI16 twosComplement16
  rw [Nat.mod_eq_of_lt hv]

theorem twosComplement16_natAbs_le (v : Nat) (hv : v < 65536) :
    (twosComplement16 v).natAbs ≤ 32768 := by
  unfold twosComplement16
  split <;> omega

theorem decodeWeight_bytes (b0 b1 b2 b3 : Nat) (h0 : b0 < 256) (h1 : b1 < 256)
    (h3 : b3 < 256) :
    decodeWeight [some b0, some b1, some b2, some b3] =
      some { weight := floatDiv (twosComplement16 (be16 b0 b1))
               (if b3 = 1 then 10 else if b3 = 2 then 100 else if b3 = 3 then 1000 else 1),
             raw_value := twosComplement16 (be16 b0 b1),
             decimal_point := b3,
             comm_error := false } := by
  have hraw : be16 b0 b1 < 65536 := by
    unfold be16
    omega
  have hdp : be16 b2 b3 % 65536 % 256 = b3 := by
    unfold be16
    omega
  have r0 : rd [some b0, some b1, some b2, some b3] 0 = some b0 := rfl
  have r1 : rd [some b0, some b1, some b2, some b3] 1 = some b1 := rfl
  have r2 : rd [some b0, some b1, some b2, some b3] 2 = some b2 := rfl
  have r3 : rd [some b0, some b1, some b2, some b3] 3 = some b3 := rfl
  unfold decodeWeight
  simp only [r0, r1, r2, r3, shl8_or_eq_be16 b0 b1 h1, shl8_or_eq_be16 b2 b3 h3, hdp,
    toI16_eq_twosComplement16 _ hraw]
  congr 3
  split
  · rfl
  · rfl
  · rfl
  · rename_i n1 n2 n3
    rw [if_neg n1, if_neg n2, if_neg n3]


/-- C11, counterexample: the payload `00 01 00 01` carries the raw value 1 and
the code 1.  The weight is the `float` quotient of 1 by 10, which is
`13421773 / 2 ^ 27` (`0x1.99999ap-4`), not the exact value `1 / 10`: one
tenth is not a single-precision number.  The same holds end to end through
`BSQ_ReadWeight` on the response `01 03 04 00 01 00 01 6A 33`. -/
theorem decodeWeight_tenth_is_rounded :
    twosComplement16 (be16 0x00 0x01) = 1 ∧ be16 0x00 0x01 = 1 ∧
      decodeWeight [some 0x00, some 0x01, some 0x00, some 0x01] =
        some { weight := 13421773 / 2 ^ 27, raw_value := 1, decimal_point := 1,
               comm_error := false } ∧
      (13421773 / 2 ^ 27 : ℚ) ≠ ((1 : Int) : ℚ) / 10 ^ 1 ∧
      (BSQ_ReadWeight
          (deviceOn 1 [(HAL_StatusTypeDef.HAL_OK,
            [0x01, 0x03, 0x04, 0x00, 0x01, 0x00, 0x01, 0x6A, 0x33])])
          { weight := 0, raw_value := 0, decimal_point := 0, comm_error := false }).2 =
        some (true, { weight := 13421773 / 2 ^ 27, raw_value := 1, decimal_point := 1,
                      comm_error := false }) := by
  decide!

/-- C11, amended: for every 4-byte register payload the decoder of
`BSQ_ReadWeight` succeeds; `raw_value` is bytes 0 and 1 read as a big-endian
two's complement 16-bit integer, and when the big-endian 16-bit code of bytes
2 and 3 is 0, 1, 2 or 3, `decimal_point` is that code and the weight is the
single-precision quotient of `raw_value` by `10 ^ code` (divisor 1, 10, 100,
1000): the `float` nearest to `raw_value / 10 ^ code`, which differs from
that exact value by at most `|raw_value / 10 ^ code| / 2 ^ 24` and equals
`raw_value` when the code is 0.  Examples: raw 150 with code 1 gives 15, raw
-5 with code 0 gives -5, and code 7 gives divisor 1 without any error. -/
theorem decodeWeight_scaling (b0 b1 b2 b3 : Nat) (h0 : b0 < 256) (h1 : b1 < 256)
    (h3 : b3 < 256) :
    (∃ d : BSQ_Data_t, decodeWeight [some b0, some b1, some b2, some b3] = some d ∧
        d.raw_value = twosComplement16 (be16 b0 b1) ∧
        d.comm_error = false ∧
        ∀ code, code ≤ 3 → be16 b2 b3 = code →
          d.decimal_point = code ∧
          d.weight = floatDiv d.raw_value (10 ^ code) ∧
          |d.weight - (d.raw_value : ℚ) / 10 ^ code| ≤
            |(d.raw_value : ℚ) / 10 ^ code| / 2 ^ 24 ∧
          (code = 0 → d.weight = (d.raw_value : ℚ))) ∧
      decodeWeight [some 0x00, some 0x96, some 0x00, some 0x01] =
        some { weight := 15, raw_value := 150, decimal_point := 1, comm_error := false } ∧
      decodeWeight [some 0xFF, some 0xFB, some 0x00, some 0x00] =
        some { weight := -5, raw_value := -5, decimal_point := 0, comm_error := false } ∧
      decodeWeight [some 0x00, some 0x96, some 0x00, some 0x07] =
        some { weight := 150, raw_value := 150, decimal_point := 7, comm_error := false } := by
  refine ⟨⟨_, decodeWeight_bytes b0 b1 b2 b3 h0 h1 h3, rfl, rfl, ?_⟩, by decide!, by decide!,
    by decide!⟩
  intro code hcode hbe
  have hb3 : b3 = code := by
    unfold be16 at hbe
    omega
  subst hb3
  have hdiv : (if b3 = 1 then 10 else if b3 = 2 then 100 else if b3 = 3 then 1000 else 1) =
      10 ^ b3 := by
    have h4 : b3 = 0 ∨ b3 = 1 ∨ b3 = 2 ∨ b3 = 3 := by omega
    rcases h4 with h | h | h | h <;> subst h <;> rfl
  have hraw : be16 b0 b1 < 65536 := by
    unfold be16
    omega
  have hmag : (twosComplement16 (be16 b0 b1)).natAbs < 2 ^ 24 * 10 ^ b3 :=
    calc (twosComplement16 (be16 b0 b1)).natAbs ≤ 32768 := twosComplement16_natAbs_le _ hraw
      _ < 2 ^ 24 * 1 := by norm_num
      _ ≤ 2 ^ 24 * 10 ^ b3 := Nat.mul_le_mul_left _ (Nat.one_le_pow _ _ (by decide))
  have hnear := floatDiv_near (twosComplement16 (be16 b0 b1)) (10 ^ b3)
    (Nat.one_le_pow _ _ (by decide)) hmag
  rw [Nat.cast_pow] at hnear
  refine ⟨rfl, ?_, ?_, ?_⟩
  · show floatDiv (twosComplement16 (be16 b0 b1))
      (if b3 = 1 then 10 else if b3 = 2 then 100 else if b3 = 3 then 1000 else 1) = _
    rw [hdiv]
  · show |floatDiv (twosComplement16 (be16 b0 b1))
      (if b3 = 1 then 10 else if b3 = 2 then 100 else if b3 = 3 then 1000 else 1) - _| ≤ _
    rw [hdiv]
    exact hnear
  · intro hz
    subst hz
    exact floatDiv_one _ (by
      have := twosComplement16_natAbs_le _ hraw
      omega)

/-- C11, amended, at the payload `00 96 00 01` of the end-to-end example. -/
theorem decodeWeight_scaling_witness :
    (∃ d : BSQ_Data_t, decodeWeight [some 0x00, some 0x96, some 0x00, some 0x01] = some d ∧
        d.raw_value = twosComplement16 (be16 0x00 0x96) ∧
        d.comm_error = false ∧
        ∀ code, code ≤ 3 → be16 0x00 0x01 = code →
          d.decimal_point = code ∧
          d.weight = floatDiv d.raw_value (10 ^ code) ∧
          |d.weight - (d.raw_value : ℚ) / 10 ^ code| ≤
            |(d.raw_value : ℚ) / 10 ^ code| / 2 ^ 24 ∧
          (code = 0 → d.weight = (d.raw_value : ℚ))) ∧
      decodeWeight [some 0x00, some 0x96, some 0x00, some 0x01] =
        some { weight := 15, raw_value := 150, decimal_point := 1, comm_error := false } ∧
      decodeWeight [some 0xFF, some 0xFB, some 0x00, some 0x00] =
        some { weight := -5, raw_value := -5, decimal_point := 0, comm_error := false } ∧
      decodeWeight [some 0x00, some 0x96, some 0x00, some 0x07] =
        some { weight := 150, raw_value := 150, decimal_point := 7, comm_error := false } :=
  decodeWeight_scaling 0x00 0x96 0x00 0x01 (by decide) (by decide) (by decide)

/-- C12, counterexample: the payload `00 96 01 01` carries the code `0x0101`,
which is none of 0, 1, 2, 3, yet the decoder keeps only the low byte of the
code (`decimal_point` is 1) and divides by 10: the weight is 15, not the raw
value 150.  The same holds end to end through `BSQ_ReadWeight`. -/
theorem decodeWeight_code_0x0101_divides_by_10 :
    be16 0x01 0x01 = 0x0101 ∧ 3 < be16 0x01 0x01 ∧
      decodeWeight [some 0x00, some 0x96, some 0x01, some 0x01] =
        some { weight := 15, raw_value := 150, decimal_point := 1, comm_error := false } ∧
      (15 : ℚ) ≠ ((150 : Int) : ℚ) ∧
      (BSQ_ReadWeight
          (deviceOn 1 [(HAL_StatusTypeDef.HAL_OK, readResponse 1 [0x00, 0x96, 0x01, 0x01])])
          { weight := 0, raw_value := 0, decimal_point := 0, comm_error := false }).2 =
        some (true, { weight := 15, raw_value := 150, decimal_point := 1,
                      comm_error := false }) := by
  decide!

/-- C12, amended: for every 4-byte register payload the decoder keeps the low
byte of the decimal-point code (the code modulo 256) in `decimal_point` and
chooses the divisor by that low byte alone: 10, 100, 1000 for the low bytes
1, 2, 3 and 1 for every other low byte.  So for every code whose low byte is
not one of 0, 1, 2, 3 the divisor is 1 and the weight equals the raw value,
and the high byte of the code has no influence on the decoded record, whatever
the low byte is: the code `0x0101` is decoded like the code 1 (divisor
10). -/
theorem decodeWeight_fallback_divisor (b0 b1 b2 b3 : Nat) (h0 : b0 < 256) (h1 : b1 < 256)
    (h3 : b3 < 256) :
    (∃ d : BSQ_Data_t, decodeWeight [some b0, some b1, some b2, some b3] = some d ∧
        d.decimal_point = be16 b2 b3 % 256 ∧
        d.raw_value = twosComplement16 (be16 b0 b1) ∧
        d.weight = floatDiv d.raw_value
          (if be16 b2 b3 % 256 = 1 then 10 else if be16 b2 b3 % 256 = 2 then 100
            else if be16 b2 b3 % 256 = 3 then 1000 else 1) ∧
        (3 < be16 b2 b3 % 256 → d.weight = (d.raw_value : ℚ))) ∧
      (∀ c2, decodeWeight [some b0, some b1, some c2, some b3] =
        decodeWeight [some b0, some b1, some b2, some b3]) ∧
      decodeWeight [some 0x00, some 0x96, some 0x01, some 0x01] =
        decodeWeight [some 0x00, some 0x96, some 0x00, some 0x01] := by
  have hlow : be16 b2 b3 % 256 = b3 := by
    unfold be16
    omega
  have hraw : be16 b0 b1 < 65536 := by
    unfold be16
    omega
  rw [hlow]
  refine ⟨⟨_, decodeWeight_bytes b0 b1 b2 b3 h0 h1 h3, rfl, rfl, rfl, ?_⟩, ?_, ?_⟩
  · intro hcode
    show floatDiv (twosComplement16 (be16 b0 b1))
      (if b3 = 1 then 10 else if b3 = 2 then 100 else if b3 = 3 then 1000 else 1) = _
    rw [if_neg (by omega), if_neg (by omega), if_neg (by omega)]
    exact floatDiv_one _ (by
      have := twosComplement16_natAbs_le _ hraw
      omega)
  · intro c2
    rw [decodeWeight_bytes b0 b1 b2 b3 h0 h1 h3, decodeWeight_bytes b0 b1 c2 b3 h0 h1 h3]
  · rw [decodeWeight_bytes 0x00 0x96 0x01 0x01 (by decide) (by decide) (by decide),
      decodeWeight_bytes 0x00 0x96 0x00 0x01 (by decide) (by decide) (by decide)]

/-- C12, amended, at the payload `00 96 00 07`, whose code 7 has a low byte
above 3: the weight is the raw value. -/
theorem decodeWeight_fallback_divisor_witness :
    3 < be16 0x00 0x07 % 256 ∧
      ∃ d : BSQ_Data_t, decodeWeight [some 0x00, some 0x96, some 0x00, some 0x07] = some d ∧
        d.decimal_point = be16 0x00 0x07 % 256 ∧
        d.raw_value = twosComplement16 (be16 0x00 0x96) ∧
        d.weight = (d.raw_value : ℚ) ∧
        ∀ c2, decodeWeight [some 0x00, some 0x96, some c2, some 0x07] =
          decodeWeight [some 0x00, some 0x96, some 0x00, some 0x07] :=
  match decodeWeight_fallback_divisor 0x00 0x96 0x00 0x07 (by decide) (by decide)
    (by decide) with
  | ⟨⟨d, hd, hp, hr, _, hw⟩, hc, _⟩ => ⟨by decide, d, hd, hp, hr, hw (by decide), hc⟩


/-! ## The read of the weight (claims C13 and C14) -/

theorem Modbus_ReadRegs_readResponse (dev : BSQ_Device_t) (start_reg reg_count : Nat)
    (out_buf : Buf) (payload : List Nat) (rest : List (HAL_StatusTypeDef × List Nat))
    (hcap : reg_count ≤ 13) (hp : payload.length = 2 * reg_count)
    (hout : 2 * reg_count ≤ out_buf.length)
    (hrep : dev.rs485.huart.replies =
      (HAL_StatusTypeDef.HAL_OK, readResponse dev.slave_addr payload) :: rest) :
    (Modbus_ReadRegs dev start_reg reg_count out_buf).2 =
      some (true, payload.map some ++ out_buf.drop (2 * reg_count)) := by
  have hn := readResponse_length dev.slave_addr payload
  have hl : (readResponse dev.slave_addr payload).length = (5 + reg_count * 2) % 65536 := by
    omega
  obtain ⟨g0, g1, g2⟩ := readResponse_header dev.slave_addr payload
  obtain ⟨glo, ghi⟩ := readResponse_crc_field dev.slave_addr payload
  rw [Modbus_ReadRegs_value dev start_reg reg_count out_buf _ _ rest hrep hl,
    if_pos (by omega), if_neg (by simp),
    readRegsCheck_written _ _ _ _ (by omega) (by omega),
    readResponse_body, g0, g1, g2, glo, ghi,
    crc_field_round_trip _ (Modbus_CRC16_lt _),
    copyOut_written _ _ out_buf _ (by omega) (by omega), readResponse_data, hp]
  simp

theorem Modbus_ReadRegs_no_reply (dev : BSQ_Device_t) (start_reg reg_count : Nat)
    (out_buf : Buf) (hrep : dev.rs485.huart.replies = []) :
    (Modbus_ReadRegs dev start_reg reg_count out_buf).2 = some (false, out_buf) := by
  simp [Modbus_ReadRegs, RS485_Send, RS485_Receive, HAL_UART_Receive, HAL_UART_Transmit, hrep]

theorem Modbus_ReadRegs_not_OK (dev : BSQ_Device_t) (start_reg reg_count : Nat)
    (out_buf : Buf) (st : HAL_StatusTypeDef) (bytes : List Nat)
    (rest : List (HAL_StatusTypeDef × List Nat))
    (hrep : dev.rs485.huart.replies = (st, bytes) :: rest)
    (hst : st ≠ HAL_StatusTypeDef.HAL_OK) (hcap : (5 + reg_count * 2) % 65536 ≤ 32) :
    (Modbus_ReadRegs dev start_reg reg_count out_buf).2 = some (false, out_buf) := by
  have hle : min ((5 + reg_count * 2) % 65536) bytes.length ≤ 32 :=
    Nat.le_trans (Nat.min_le_left _ _) hcap
  simp [Modbus_ReadRegs, RS485_Send, RS485_Receive, HAL_UART_Receive, HAL_UART_Transmit, hrep,
    hle, hst]

theorem BSQ_ReadWeight_outcome (dev : BSQ_Device_t) (data : BSQ_Data_t) :
    (BSQ_ReadWeight dev data).2 =
      match (Modbus_ReadRegs dev REG_MEASURE_VAL 2 (List.replicate 4 none)).2 with
      | none => none
      | some (false, _) => some (false, { data with comm_error := true })
      | some (true, raw_bytes) =>
        match decodeWeight raw_bytes with
        | none => none
        | some decoded => some (true, decoded) :=
  rfl


/-- C13: end to end, for every device (every slave address), every data bytes
`d0 .. d3` and every prior content of the record, when the transport delivers
the 9-byte response address, `0x03`, `0x04`, `d0 .. d3`, CRC low, CRC high
with the CRC of the seven bytes before it, `BSQ_ReadWeight` returns true with
`comm_error` false, and `raw_value`, `decimal_point` and `weight` are the
functions of `d0 .. d3` written below, in which the prior record does not
occur (no bound on `d2` is needed); the weight is the single-precision
quotient of the raw value by the divisor.  For the data bytes `00 96 00 01`
the record is weight 15, raw value 150, decimal point 1, no communication
error. -/
theorem BSQ_ReadWeight_end_to_end (dev : BSQ_Device_t) (data : BSQ_Data_t)
    (d0 d1 d2 d3 : Nat) (rest : List (HAL_StatusTypeDef × List Nat))
    (h0 : d0 < 256) (h1 : d1 < 256) (h3 : d3 < 256)
    (hrep : dev.rs485.huart.replies =
      (HAL_StatusTypeDef.HAL_OK,
        [dev.slave_addr, 0x03, 0x04, d0, d1, d2, d3,
          Modbus_CRC16 [dev.slave_addr, 0x03, 0x04, d0, d1, d2, d3] % 256,
          Modbus_CRC16 [dev.slave_addr, 0x03, 0x04, d0, d1, d2, d3] / 256]) :: rest) :
    (BSQ_ReadWeight dev data).2 =
        some (true,
          { weight := floatDiv (twosComplement16 (be16 d0 d1))
              (if be16 d2 d3 % 256 = 1 then 10 else if be16 d2 d3 % 256 = 2 then 100
                else if be16 d2 d3 % 256 = 3 then 1000 else 1),
            raw_value := twosComplement16 (be16 d0 d1),
            decimal_point := be16 d2 d3 % 256,
            comm_error := false }) ∧
      (BSQ_ReadWeight exampleDevice data).2 =
        some (true, { weight := 15, raw_value := 150, decimal_point := 1,
                      comm_error := false }) := by
  have key : ∀ (dv : BSQ_Device_t) (e0 e1 e2 e3 : Nat)
      (rs : List (HAL_StatusTypeDef × List Nat)), e0 < 256 → e1 < 256 → e3 < 256 →
      dv.rs485.huart.replies =
        (HAL_StatusTypeDef.HAL_OK, readResponse dv.slave_addr [e0, e1, e2, e3]) :: rs →
      (BSQ_ReadWeight dv data).2 =
        some (true,
          { weight := floatDiv (twosComplement16 (be16 e0 e1))
              (if e3 = 1 then 10 else if e3 = 2 then 100 else if e3 = 3 then 1000 else 1),
            raw_value := twosComplement16 (be16 e0 e1),
            decimal_point := e3,
            comm_error := false }) := by
    intro dv e0 e1 e2 e3 rs k0 k1 k3 hr
    have hread := Modbus_ReadRegs_readResponse dv REG_MEASURE_VAL 2 (List.replicate 4 none)
      [e0, e1, e2, e3] rs (by decide) rfl (by decide) hr
    have hbuf : List.map some [e0, e1, e2, e3] ++ List.drop (2 * 2) (List.replicate 4 none) =
        [some e0, some e1, some e2, some e3] := rfl
    rw [BSQ_ReadWeight_outcome, hread, hbuf]
    simp only [decodeWeight_bytes e0 e1 e2 e3 k0 k1 k3]
  have hlow : be16 d2 d3 % 256 = d3 := by
    unfold be16
    omega
  refine ⟨?_, ?_⟩
  · rw [hlow]
    exact key dev d0 d1 d2 d3 rest h0 h1 h3 hrep
  · rw [key exampleDevice 0x00 0x96 0x00 0x01 [] (by decide) (by decide) (by decide)
      (by decide!)]
    decide!

theorem exampleDevice_replies :
    exampleDevice.rs485.huart.replies =
      (HAL_StatusTypeDef.HAL_OK,
        [exampleDevice.slave_addr, 0x03, 0x04, 0x00, 0x96, 0x00, 0x01,
          Modbus_CRC16 [exampleDevice.slave_addr, 0x03, 0x04, 0x00, 0x96, 0x00, 0x01] % 256,
          Modbus_CRC16 [exampleDevice.slave_addr, 0x03, 0x04, 0x00, 0x96, 0x00, 0x01] / 256])
        :: [] := by
  decide!

/-- C13 at the device and the response of the end-to-end example, with a
prior record that holds other values. -/
theorem BSQ_ReadWeight_end_to_end_witness :
    (BSQ_ReadWeight exampleDevice
          { weight := 7, raw_value := -1, decimal_point := 9, comm_error := true }).2 =
        some (true,
          { weight := floatDiv (twosComplement16 (be16 0x00 0x96))
              (if be16 0x00 0x01 % 256 = 1 then 10 else if be16 0x00 0x01 % 256 = 2 then 100
                else if be16 0x00 0x01 % 256 = 3 then 1000 else 1),
            raw_value := twosComplement16 (be16 0x00 0x96),
            decimal_point := be16 0x00 0x01 % 256,
            comm_error := false }) ∧
      (BSQ_ReadWeight exampleDevice
          { weight := 7, raw_value := -1, decimal_point := 9, comm_error := true }).2 =
        some (true, { weight := 15, raw_value := 150, decimal_point := 1,
                      comm_error := false }) :=
  BSQ_ReadWeight_end_to_end exampleDevice
    { weight := 7, raw_value := -1, decimal_point := 9, comm_error := true }
    0x00 0x96 0x00 0x01 [] (by decide) (by decide) (by decide) exampleDevice_replies

/-- C14: for every device and every prior content of the record, when the
read transaction fails (nothing arrives and the receive times out, or the
receive returns any status other than `HAL_OK`, or a 9-byte response arrives
whose address, function code or CRC is wrong), `BSQ_ReadWeight` returns false
with `comm_error` set to true and with `weight`, `raw_value` and
`decimal_point` exactly as they were before the call. -/
theorem BSQ_ReadWeight_failure_frame (dev : BSQ_Device_t) (data : BSQ_Data_t)
    (hfail : dev.rs485.huart.replies = [] ∨
      (∃ st bytes rest, dev.rs485.huart.replies = (st, bytes) :: rest ∧
        st ≠ HAL_StatusTypeDef.HAL_OK) ∨
      (∃ resp rest, dev.rs485.huart.replies = (HAL_StatusTypeDef.HAL_OK, resp) :: rest ∧
        resp.length = 9 ∧ (∀ b ∈ resp, b < 256) ∧
        (resp.getD 0 0 ≠ dev.slave_addr ∨ resp.getD 1 0 ≠ 0x03 ∨
          frameCrc resp ≠ Modbus_CRC16 (frameBody resp)))) :
    ∃ d : BSQ_Data_t, (BSQ_ReadWeight dev data).2 = some (false, d) ∧
      d.comm_error = true ∧ d.weight = data.weight ∧ d.raw_value = data.raw_value ∧
      d.decimal_point = data.decimal_point := by
  have hread : (Modbus_ReadRegs dev REG_MEASURE_VAL 2 (List.replicate 4 none)).2 =
      some (false, List.replicate 4 none) := by
    rcases hfail with hnone | ⟨st, bytes, rest, hrep, hst⟩ | ⟨resp, rest, hrep, hlen, hb, hbad⟩
    · exact Modbus_ReadRegs_no_reply dev _ _ _ hnone
    · exact Modbus_ReadRegs_not_OK dev _ _ _ st bytes rest hrep hst (by decide)
    · rw [Modbus_ReadRegs_HAL_OK dev REG_MEASURE_VAL 2 _ resp rest hrep (by rw [hlen])
        (by omega) (by omega) hb]
      by_cases c0 : resp.getD 0 0 = dev.slave_addr
      · by_cases c1 : resp.getD 1 0 = 0x03
        · have c2 : Modbus_CRC16 (frameBody resp) ≠ frameCrc resp := by
            rcases hbad with h | h | h
            · exact absurd c0 h
            · exact absurd c1 h
            · exact fun e => h e.symm
          simp only [c0, c1, c2, ne_eq, not_true_eq_false, if_false, not_false_eq_true,
            if_true]
        · simp only [c0, c1, ne_eq, not_true_eq_false, if_false, not_false_eq_true, if_true]
      · simp only [c0, ne_eq, not_false_eq_true, if_true]
  refine ⟨{ data with comm_error := true }, ?_, rfl, rfl, rfl, rfl⟩
  rw [BSQ_ReadWeight_outcome, hread]

/-- C14 at slave 1 on a silent line, with a prior record that holds a
reading. -/
theorem BSQ_ReadWeight_failure_frame_witness :
    ∃ d : BSQ_Data_t,
      (BSQ_ReadWeight (deviceOn 1 [])
          { weight := 15, raw_value := 150, decimal_point := 1, comm_error := false }).2 =
        some (false, d) ∧
      d.comm_error = true ∧
      d.weight =
        ({ weight := 15, raw_value := 150, decimal_point := 1, comm_error := false } :
          BSQ_Data_t).weight ∧
      d.raw_value =
        ({ weight := 15, raw_value := 150, decimal_point := 1, comm_error := false } :
          BSQ_Data_t).raw_value ∧
      d.decimal_point =
        ({ weight := 15, raw_value := 150, decimal_point := 1, comm_error := false } :
          BSQ_Data_t).decimal_point :=
  BSQ_ReadWeight_failure_frame (deviceOn 1 [])
    { weight := 15, raw_value := 150, decimal_point := 1, comm_error := false }
    (Or.inl rfl)


/-! ## The byte count of the read response (claims C15 and C19) -/

theorem copyOut_overflow (rx : Buf) (n : Nat) :
    ∀ (i : Nat) (out : Buf), i ≤ out.length → out.length < i + n →
      copyOut rx n i out = none := by
  induction n with
  | zero =>
    intro i out h1 h2
    omega
  | succ n ih =>
    intro i out h1 h2
    rw [copyOut]
    cases hr : rd rx (3 + i) with
    | none => rfl
    | some v =>
      simp only []
      unfold wr
      by_cases hi : i < out.length
      · rw [if_pos hi]
        simp only []
        exact ih (i + 1) _ (by rw [List.length_set]; omega) (by rw [List.length_set]; omega)
      · rw [if_neg hi]

theorem Modbus_ReadRegs_accepted (dev : BSQ_Device_t) (start_reg reg_count : Nat)
    (out_buf : Buf) (resp : List Nat) (rest : List (HAL_StatusTypeDef × List Nat))
    (hrep : dev.rs485.huart.replies = (HAL_StatusTypeDef.HAL_OK, resp) :: rest)
    (hlen : resp.length = (5 + reg_count * 2) % 65536) (h3 : 3 ≤ resp.length)
    (h32 : resp.length ≤ 32) (hb : ∀ b ∈ resp, b < 256)
    (c0 : resp.getD 0 0 = dev.slave_addr) (c1 : resp.getD 1 0 = 0x03)
    (c2 : frameCrc resp = Modbus_CRC16 (frameBody resp)) :
    (Modbus_ReadRegs dev start_reg reg_count out_buf).2 =
      (copyOut (resp.map some ++ List.replicate (32 - resp.length) none)
        (resp.getD 2 0) 0 out_buf).map (fun o => (true, o)) := by
  rw [Modbus_ReadRegs_HAL_OK dev start_reg reg_count out_buf resp rest hrep hlen h3 h32 hb]
  simp only [c0, c1, c2, ne_eq, not_true_eq_false, if_false]

theorem Modbus_ReadRegs_accepted_copy (dev : BSQ_Device_t) (start_reg reg_count : Nat)
    (out_buf : Buf) (resp : List Nat) (rest : List (HAL_StatusTypeDef × List Nat))
    (hrep : dev.rs485.huart.replies = (HAL_StatusTypeDef.HAL_OK, resp) :: rest)
    (hlen : resp.length = (5 + reg_count * 2) % 65536) (h3 : 3 ≤ resp.length)
    (h32 : resp.length ≤ 32) (hb : ∀ b ∈ resp, b < 256)
    (c0 : resp.getD 0 0 = dev.slave_addr) (c1 : resp.getD 1 0 = 0x03)
    (c2 : frameCrc resp = Modbus_CRC16 (frameBody resp))
    (hin : 3 + resp.getD 2 0 ≤ resp.length) (hout : resp.getD 2 0 ≤ out_buf.length) :
    (Modbus_ReadRegs dev start_reg reg_count out_buf).2 =
      some (true, ((resp.drop 3).take (resp.getD 2 0)).map some ++
        out_buf.drop (resp.getD 2 0)) := by
  rw [Modbus_ReadRegs_accepted dev start_reg reg_count out_buf resp rest hrep hlen h3 h32 hb
    c0 c1 c2, copyOut_written resp _ out_buf _ hin hout]
  rfl

theorem length_nine (l : List Nat) (h : l.length = 9) :
    ∃ r0 r1 r2 r3 r4 r5 r6 r7 r8, l = [r0, r1, r2, r3, r4, r5, r6, r7, r8] := by
  match l, h with
  | [r0, r1, r2, r3, r4, r5, r6, r7, r8], _ => exact ⟨r0, r1, r2, r3, r4, r5, r6, r7, r8, rfl⟩

theorem BSQ_ReadWeight_accepted (dev : BSQ_Device_t) (data : BSQ_Data_t)
    (resp : List Nat) (rest : List (HAL_StatusTypeDef × List Nat))
    (hrep : dev.rs485.huart.replies = (HAL_StatusTypeDef.HAL_OK, resp) :: rest)
    (hlen : resp.length = 9) (hb : ∀ b ∈ resp, b < 256)
    (c0 : resp.getD 0 0 = dev.slave_addr) (c1 : resp.getD 1 0 = 0x03)
    (c2 : frameCrc resp = Modbus_CRC16 (frameBody resp)) :
    ((BSQ_ReadWeight dev data).2 = none ↔ resp.getD 2 0 ≠ 4) := by
  have hacc := Modbus_ReadRegs_accepted dev REG_MEASURE_VAL 2 (List.replicate 4 none) resp rest
    hrep (by rw [hlen]) (by omega) (by omega) hb c0 c1 c2
  obtain ⟨r0, r1, r2, r3, r4, r5, r6, r7, r8, rfl⟩ := length_nine resp hlen
  have hcnt : [r0, r1, r2, r3, r4, r5, r6, r7, r8].getD 2 0 = r2 := rfl
  rw [hcnt] at hacc ⊢
  rw [BSQ_ReadWeight_outcome, hacc]
  by_cases h4 : r2 = 4
  · subst h4
    have hcopy := copyOut_written [r0, r1, 4, r3, r4, r5, r6, r7, r8]
      (List.replicate (32 - [r0, r1, 4, r3, r4, r5, r6, r7, r8].length) none)
      (List.replicate 4 none) 4 (by simp) (by simp)
    have hdec := decodeWeight_bytes r3 r4 r5 r6 (hb r3 (by simp)) (hb r4 (by simp))
      (hb r6 (by simp))
    rw [hcopy]
    have hbuf : List.map some (List.take 4 (List.drop 3 [r0, r1, 4, r3, r4, r5, r6, r7, r8])) ++
        List.drop 4 (List.replicate 4 none) = [some r3, some r4, some r5, some r6] := rfl
    rw [hbuf]
    simp only [Option.map_some', hdec]
    simp
  · by_cases h5 : r2 < 4
    · have hcases : r2 = 0 ∨ r2 = 1 ∨ r2 = 2 ∨ r2 = 3 := by omega
      rcases hcases with h | h | h | h <;> subst h <;> simp [copyOut, rd, wr, decodeWeight]
    · rw [copyOut_overflow _ r2 0 (List.replicate 4 none) (by simp) (by simp; omega)]
      simp [h4]


theorem decodeWeight_comm_error (raw_bytes : Buf) (d : BSQ_Data_t)
    (h : decodeWeight raw_bytes = some d) : d.comm_error = false := by
  unfold decodeWeight at h
  split at h
  · simp only [Option.some.injEq] at h
    rw [← h]
  · exact Option.noConfusion h

/-- C15: the number of bytes that `Modbus_ReadRegs` copies is the byte count
field of the response and is not compared with `2 * reg_count`.  For every
accepted 9-byte response to the read of two registers whose byte count is at
most 6 and at most the length of the output array, exactly that many bytes
are copied.  The response `01 03 02 00 96 00 01 53 DF` passes the three
checks with byte count 2: two of the four cells of the output are written and
two stay unfilled.  The response `01 03 05 00 96 00 01 E6 1F` passes them
with byte count 5: five bytes are copied into an array of eight cells, and
with the array of four cells that `BSQ_ReadWeight` passes the fifth
assignment is outside the array, so that the call has no defined outcome. -/
theorem Modbus_ReadRegs_copies_byte_count :
    (∀ (dev : BSQ_Device_t) (out_buf : Buf) (resp : List Nat)
        (rest : List (HAL_StatusTypeDef × List Nat)),
        dev.rs485.huart.replies = (HAL_StatusTypeDef.HAL_OK, resp) :: rest →
        resp.length = 9 → (∀ b ∈ resp, b < 256) →
        resp.getD 0 0 = dev.slave_addr → resp.getD 1 0 = 0x03 →
        frameCrc resp = Modbus_CRC16 (frameBody resp) →
        resp.getD 2 0 ≤ 6 → resp.getD 2 0 ≤ out_buf.length →
        (Modbus_ReadRegs dev REG_MEASURE_VAL 2 out_buf).2 =
          some (true, ((resp.drop 3).take (resp.getD 2 0)).map some ++
            out_buf.drop (resp.getD 2 0))) ∧
      (∃ resp : List Nat, resp.length = 9 ∧ resp.getD 0 0 = 1 ∧ resp.getD 1 0 = 0x03 ∧
        frameCrc resp = Modbus_CRC16 (frameBody resp) ∧ resp.getD 2 0 = 2 ∧
        (Modbus_ReadRegs (deviceOn 1 [(HAL_StatusTypeDef.HAL_OK, resp)]) REG_MEASURE_VAL 2
            (List.replicate 4 none)).2 =
          some (true, [some 0x00, some 0x96, none, none]) ∧
        (BSQ_ReadWeight (deviceOn 1 [(HAL_StatusTypeDef.HAL_OK, resp)])
            { weight := 0, raw_value := 0, decimal_point := 0, comm_error := false }).2 =
          none) ∧
      (∃ resp : List Nat, resp.length = 9 ∧ resp.getD 0 0 = 1 ∧ resp.getD 1 0 = 0x03 ∧
        frameCrc resp = Modbus_CRC16 (frameBody resp) ∧ resp.getD 2 0 = 5 ∧
        (Modbus_ReadRegs (deviceOn 1 [(HAL_StatusTypeDef.HAL_OK, resp)]) REG_MEASURE_VAL 2
            (List.replicate 8 none)).2 =
          some (true, [some 0x00, some 0x96, some 0x00, some 0x01, some 0xE6,
            none, none, none]) ∧
        copyOut (resp.map some ++ List.replicate 23 none) 4 0 (List.replicate 4 none) =
          some [some 0x00, some 0x96, some 0x00, some 0x01] ∧
        copyOut (resp.map some ++ List.replicate 23 none) 5 0 (List.replicate 4 none) =
          none ∧
        (Modbus_ReadRegs (deviceOn 1 [(HAL_StatusTypeDef.HAL_OK, resp)]) REG_MEASURE_VAL 2
            (List.replicate 4 none)).2 = none ∧
        (BSQ_ReadWeight (deviceOn 1 [(HAL_StatusTypeDef.HAL_OK, resp)])
            { weight := 0, raw_value := 0, decimal_point := 0, comm_error := false }).2 =
          none) := by
  refine ⟨?_, ⟨[0x01, 0x03, 0x02, 0x00, 0x96, 0x00, 0x01, 0x53, 0xDF], by decide!⟩,
    ⟨[0x01, 0x03, 0x05, 0x00, 0x96, 0x00, 0x01, 0xE6, 0x1F], by decide!⟩⟩
  intro dev out_buf resp rest hrep hlen hb c0 c1 c2 h6 hout
  exact Modbus_ReadRegs_accepted_copy dev REG_MEASURE_VAL 2 out_buf resp rest hrep
    (by rw [hlen]) (by omega) (by omega) hb c0 c1 c2 (by omega) hout

/-- C19: for every device, every scripted transport and every prior content
of the record, whenever `BSQ_ReadWeight` returns, the value returned is the
negation of the `comm_error` field of the record: it returns true exactly
when it leaves `comm_error` false.  The call does return when nothing
arrives, when the receive returns a status other than `HAL_OK`, and when a
9-byte response arrives, except for the responses that pass the three checks
with a byte count other than 4, on which the copy or the decoding leaves the
arrays (claim C15).  On the example response it returns true and clears a
prior `comm_error`; on a silent line it returns false and sets it. -/
theorem BSQ_ReadWeight_return_value (dev : BSQ_Device_t) (data : BSQ_Data_t) :
    (∀ (b : Bool) (d : BSQ_Data_t), (BSQ_ReadWeight dev data).2 = some (b, d) →
        b = !d.comm_error ∧ (b = true ↔ d.comm_error = false)) ∧
      (dev.rs485.huart.replies = [] → (BSQ_ReadWeight dev data).2 ≠ none) ∧
      (∀ st bytes rest, dev.rs485.huart.replies = (st, bytes) :: rest →
        st ≠ HAL_StatusTypeDef.HAL_OK → (BSQ_ReadWeight dev data).2 ≠ none) ∧
      (∀ resp rest, dev.rs485.huart.replies = (HAL_StatusTypeDef.HAL_OK, resp) :: rest →
        resp.length = 9 → (∀ b ∈ resp, b < 256) →
        ((BSQ_ReadWeight dev data).2 = none ↔
          (resp.getD 0 0 = dev.slave_addr ∧ resp.getD 1 0 = 0x03 ∧
            frameCrc resp = Modbus_CRC16 (frameBody resp) ∧ resp.getD 2 0 ≠ 4))) ∧
      (BSQ_ReadWeight exampleDevice
          { weight := 0, raw_value := 0, decimal_point := 0, comm_error := true }).2 =
        some (true, { weight := 15, raw_value := 150, decimal_point := 1,
                      comm_error := false }) ∧
      (BSQ_ReadWeight (deviceOn 1 [])
          { weight := 15, raw_value := 150, decimal_point := 1, comm_error := false }).2 =
        some (false, { weight := 15, raw_value := 150, decimal_point := 1,
                       comm_error := true }) := by
  refine ⟨?_, ?_, ?_, ?_, by decide!, by decide!⟩
  · intro b d h
    rw [BSQ_ReadWeight_outcome] at h
    have hb : b = !d.comm_error := by
      cases hr : (Modbus_ReadRegs dev REG_MEASURE_VAL 2 (List.replicate 4 none)).2 with
      | none =>
        rw [hr] at h
        exact Option.noConfusion h
      | some r =>
        obtain ⟨ok, raw⟩ := r
        rw [hr] at h
        cases ok with
        | false =>
          simp only [Option.some.injEq, Prod.mk.injEq] at h
          obtain ⟨hb, hd⟩ := h
          rw [← hb, ← hd]
          rfl
        | true =>
          simp only [] at h
          cases hd : decodeWeight raw with
          | none =>
            rw [hd] at h
            exact Option.noConfusion h
          | some dec =>
            rw [hd] at h
            simp only [Option.some.injEq, Prod.mk.injEq] at h
            obtain ⟨hb, hdd⟩ := h
            rw [← hb, ← hdd, decodeWeight_comm_error raw dec hd]
            rfl
    refine ⟨hb, ?_⟩
    rw [hb]
    cases d.comm_error <;> simp
  · intro hnone
    rw [BSQ_ReadWeight_outcome, Modbus_ReadRegs_no_reply dev _ _ _ hnone]
    simp
  · intro st bytes rest hrep hst
    rw [BSQ_ReadWeight_outcome,
      Modbus_ReadRegs_not_OK dev _ _ _ st bytes rest hrep hst (by decide)]
    simp
  · intro resp rest hrep hlen hb
    by_cases hchk : resp.getD 0 0 = dev.slave_addr ∧ resp.getD 1 0 = 0x03 ∧
        frameCrc resp = Modbus_CRC16 (frameBody resp)
    · obtain ⟨c0, c1, c2⟩ := hchk
      rw [BSQ_ReadWeight_accepted dev data resp rest hrep hlen hb c0 c1 c2]
      exact ⟨fun h => ⟨c0, c1, c2, h⟩, fun h => h.2.2.2⟩
    · have hrej : (Modbus_ReadRegs dev REG_MEASURE_VAL 2 (List.replicate 4 none)).2 =
          some (false, List.replicate 4 none) := by
        rw [Modbus_ReadRegs_HAL_OK dev REG_MEASURE_VAL 2 _ resp rest hrep (by rw [hlen])
          (by omega) (by omega) hb]
        by_cases c0 : resp.getD 0 0 = dev.slave_addr
        · by_cases c1 : resp.getD 1 0 = 0x03
          · have c2 : Modbus_CRC16 (frameBody resp) ≠ frameCrc resp :=
              fun e => hchk ⟨c0, c1, e.symm⟩
            simp only [c0, c1, c2, ne_eq, not_true_eq_false, if_false, not_false_eq_true,
              if_true]
          · simp only [c0, c1, ne_eq, not_true_eq_false, if_false, not_false_eq_true,
              if_true]
        · simp only [c0, ne_eq, not_false_eq_true, if_true]
      rw [BSQ_ReadWeight_outcome, hrej]
      constructor
      · intro h
        exact Option.noConfusion h
      · intro h
        exact absurd ⟨h.1, h.2.1, h.2.2.1⟩ hchk


/-! ## The trace of a device operation (claim C16) -/

theorem Modbus_ReadRegs_replies (dev : BSQ_Device_t) (start_reg reg_count : Nat)
    (out_buf : Buf) :
    (Modbus_ReadRegs dev start_reg reg_count out_buf).1.rs485.huart.replies =
        dev.rs485.huart.replies.tail ∧
      (Modbus_ReadRegs dev start_reg reg_count out_buf).1.slave_addr = dev.slave_addr := by
  simp [Modbus_ReadRegs, RS485_Send, RS485_Receive, HAL_UART_Transmit, HAL_UART_Receive]

theorem Modbus_WriteSingle_replies (dev : BSQ_Device_t) (reg_addr val : Nat) :
    (Modbus_WriteSingle dev reg_addr val).1.rs485.huart.replies =
        dev.rs485.huart.replies.tail ∧
      (Modbus_WriteSingle dev reg_addr val).1.slave_addr = dev.slave_addr := by
  simp [Modbus_WriteSingle, RS485_Send, RS485_Receive, HAL_UART_Transmit, HAL_UART_Receive]

theorem Modbus_ReadRegs_log_requestFrame (dev : BSQ_Device_t) (start_reg reg_count : Nat)
    (out_buf : Buf) (hs : start_reg < 65536) (hr : reg_count < 65536) :
    (Modbus_ReadRegs dev start_reg reg_count out_buf).1.rs485.huart.log =
      dev.rs485.huart.log ++
        [UartCall.transmit (requestFrame dev.slave_addr 0x03 start_reg reg_count) 100,
          UartCall.receive ((5 + reg_count * 2) % 65536) 200] := by
  rw [Modbus_ReadRegs_log, crc_lo_byte, crc_hi_byte, hi_byte_of_lt start_reg hs,
    hi_byte_of_lt reg_count hr, and_ff_eq_mod, and_ff_eq_mod]
  rfl

theorem Modbus_WriteSingle_log_requestFrame (dev : BSQ_Device_t) (reg_addr val : Nat)
    (ha : reg_addr < 65536) (hv : val < 65536) :
    (Modbus_WriteSingle dev reg_addr val).1.rs485.huart.log =
      dev.rs485.huart.log ++
        [UartCall.transmit (requestFrame dev.slave_addr 0x06 reg_addr val) 100,
          UartCall.receive 8 200] := by
  rw [Modbus_WriteSingle_log, crc_lo_byte, crc_hi_byte, hi_byte_of_lt reg_addr ha,
    hi_byte_of_lt val hv, and_ff_eq_mod, and_ff_eq_mod]
  rfl

/-- C16: with the calls on the UART recorded in a log, every invocation of
`BSQ_ReadWeight`, `BSQ_Tare` or `BSQ_Zero` adds exactly two entries to the
log, whatever the outcome: one transmit of the full 8-byte request frame,
then one receive, which asks for 9 bytes in `BSQ_ReadWeight` and for 8 bytes
in `BSQ_Tare` and `BSQ_Zero`, both with a timeout of 200 ms.  Exactly one
scripted reply is consumed; nothing is sent or received a second time. -/
theorem device_operations_trace (dev : BSQ_Device_t) (data : BSQ_Data_t) :
    ((BSQ_ReadWeight dev data).1.rs485.huart.log =
          dev.rs485.huart.log ++
            [UartCall.transmit (requestFrame dev.slave_addr 0x03 REG_MEASURE_VAL 2) 100,
              UartCall.receive 9 200] ∧
        (requestFrame dev.slave_addr 0x03 REG_MEASURE_VAL 2).length = 8 ∧
        5 + 2 * 2 = 9 ∧
        (BSQ_ReadWeight dev data).1.rs485.huart.replies = dev.rs485.huart.replies.tail) ∧
      ((BSQ_Tare dev).1.rs485.huart.log =
          dev.rs485.huart.log ++
            [UartCall.transmit (requestFrame dev.slave_addr 0x06 REG_TARE 0x0001) 100,
              UartCall.receive 8 200] ∧
        (requestFrame dev.slave_addr 0x06 REG_TARE 0x0001).length = 8 ∧
        (BSQ_Tare dev).1.rs485.huart.replies = dev.rs485.huart.replies.tail) ∧
      ((BSQ_Zero dev).1.rs485.huart.log =
          dev.rs485.huart.log ++
            [UartCall.transmit (requestFrame dev.slave_addr 0x06 REG_ZERO 0x0011) 100,
              UartCall.receive 8 200] ∧
        (requestFrame dev.slave_addr 0x06 REG_ZERO 0x0011).length = 8 ∧
        (BSQ_Zero dev).1.rs485.huart.replies = dev.rs485.huart.replies.tail) := by
  refine ⟨⟨?_, rfl, rfl, ?_⟩, ⟨?_, rfl, ?_⟩, ⟨?_, rfl, ?_⟩⟩
  · exact Modbus_ReadRegs_log_requestFrame dev REG_MEASURE_VAL 2 (List.replicate 4 none)
      (by decide) (by decide)
  · exact (Modbus_ReadRegs_replies dev REG_MEASURE_VAL 2 (List.replicate 4 none)).1
  · exact Modbus_WriteSingle_log_requestFrame dev REG_TARE 0x0001 (by decide) (by decide)
  · exact (Modbus_WriteSingle_replies dev REG_TARE 0x0001).1
  · exact Modbus_WriteSingle_log_requestFrame dev REG_ZERO 0x0011 (by decide) (by decide)
  · exact (Modbus_WriteSingle_replies dev REG_ZERO 0x0011).1

/-! ## The CRC residue (claim C17) -/

theorem crcLoop_append (a b : List Nat) (c : Nat) :
    crcLoop (a ++ b) c = crcLoop b (crcLoop a c) := by
  induction a generalizing c with
  | nil => rfl
  | cons x rest ih =>
    rw [List.cons_append, crcLoop, crcLoop, ih]

theorem crcShift_double (x : Nat) : crcShift (2 * x) = x := by
  unfold crcShift
  rw [Nat.and_one_is_mod, Nat.shiftRight_eq_div_pow]
  have h0 : 2 * x % 2 = 0 := by omega
  have h1 : 2 * x / 2 ^ 1 = x := by omega
  simp [h0, h1]

theorem crcBits_eight_shifted (h : Nat) : crcBits 8 (256 * h) = h := by
  have e : 256 * h = 2 * (2 * (2 * (2 * (2 * (2 * (2 * (2 * h))))))) := by omega
  rw [e]
  simp only [crcBits, crcShift_double]

theorem xor_low_cleared (c : Nat) : c ^^^ (c % 256) = 256 * (c / 256) := by
  have h := xor_low_byte c (c % 256) (Nat.mod_lt _ (by decide))
  rw [Nat.xor_self] at h
  omega

theorem crcLoop_residue (c : Nat) (hc : c < 65536) :
    crcLoop [c &&& 0xFF, c >>> 8] c = 0 := by
  have hlo : (c &&& 0xFF) % 65536 = c % 256 := by
    rw [and_ff_eq_mod]
    omega
  have hhi : (c >>> 8) % 65536 = c / 256 := by
    rw [shr8_eq_div]
    omega
  simp only [crcLoop, hlo, hhi, xor_low_cleared, crcBits_eight_shifted, Nat.xor_self]
  rfl

theorem Modbus_CRC16_residue (m : List Nat) :
    Modbus_CRC16 (m ++ [Modbus_CRC16 m &&& 0xFF, Modbus_CRC16 m >>> 8]) = 0 := by
  unfold Modbus_CRC16
  rw [crcLoop_append]
  exact crcLoop_residue _ (Modbus_CRC16_lt m)

theorem crc_hi_unmasked (m : List Nat) :
    (Modbus_CRC16 m >>> 8) &&& 0xFF = Modbus_CRC16 m >>> 8 := by
  rw [crc_hi_byte, shr8_eq_div]

/-- C17: for every byte sequence `m` with `c = Modbus_CRC16 m`, the CRC of `m`
followed by the two bytes `c & 0xFF` and `c >> 8` is 0; hence the request
frame that `Modbus_ReadRegs` transmits and the one that `Modbus_WriteSingle`
transmits, each taken as a whole sequence of 8 bytes, have CRC 0. -/
theorem Modbus_CRC16_residue_zero (m : List Nat) (dev : BSQ_Device_t)
    (start_reg reg_count reg_addr val : Nat) (out_buf : Buf) :
    Modbus_CRC16 (m ++ [Modbus_CRC16 m &&& 0xFF, Modbus_CRC16 m >>> 8]) = 0 ∧
      (∃ frame : List Nat,
        (Modbus_ReadRegs dev start_reg reg_count out_buf).1.rs485.huart.log =
          dev.rs485.huart.log ++
            [UartCall.transmit frame 100, UartCall.receive ((5 + reg_count * 2) % 65536) 200] ∧
        frame.length = 8 ∧ Modbus_CRC16 frame = 0) ∧
      (∃ frame : List Nat,
        (Modbus_WriteSingle dev reg_addr val).1.rs485.huart.log =
          dev.rs485.huart.log ++ [UartCall.transmit frame 100, UartCall.receive 8 200] ∧
        frame.length = 8 ∧ Modbus_CRC16 frame = 0) := by
  refine ⟨Modbus_CRC16_residue m, ⟨_, Modbus_ReadRegs_log dev start_reg reg_count out_buf,
    rfl, ?_⟩, ⟨_, Modbus_WriteSingle_log dev reg_addr val, rfl, ?_⟩⟩
  · rw [crc_hi_unmasked]
    exact Modbus_CRC16_residue [dev.slave_addr, 0x03, (start_reg >>> 8) &&& 0xFF,
      start_reg &&& 0xFF, (reg_count >>> 8) &&& 0xFF, reg_count &&& 0xFF]
  · rw [crc_hi_unmasked]
    exact Modbus_CRC16_residue [dev.slave_addr, 0x06, (reg_addr >>> 8) &&& 0xFF,
      reg_addr &&& 0xFF, (val >>> 8) &&& 0xFF, val &&& 0xFF]


/-! ## Detection of a changed byte (claim C18) -/

theorem crcShift_even (c : Nat) (h : c % 2 = 0) : crcShift c = c / 2 := by
  unfold crcShift
  rw [Nat.and_one_is_mod, Nat.shiftRight_eq_div_pow]
  simp [h]

theorem crcShift_odd (c : Nat) (h : c % 2 = 1) : crcShift c = (c / 2) ^^^ 0xA001 := by
  unfold crcShift
  rw [Nat.and_one_is_mod, Nat.shiftRight_eq_div_pow]
  simp [h]

theorem xor_poly_ge (x : Nat) (hx : x < 32768) : 32768 ≤ x ^^^ 0xA001 := by
  have hbit : (x ^^^ 0xA001).testBit 15 = true := by
    rw [Nat.testBit_xor, Nat.testBit_lt_two_pow (i := 15) hx]
    decide
  exact Nat.testBit_implies_ge hbit

theorem crcShift_injective (c1 c2 : Nat) (h1 : c1 < 65536) (h2 : c2 < 65536)
    (h : crcShift c1 = crcShift c2) : c1 = c2 := by
  rcases Nat.mod_two_eq_zero_or_one c1 with p1 | p1 <;>
    rcases Nat.mod_two_eq_zero_or_one c2 with p2 | p2
  · rw [crcShift_even c1 p1, crcShift_even c2 p2] at h
    omega
  · rw [crcShift_even c1 p1, crcShift_odd c2 p2] at h
    have := xor_poly_ge (c2 / 2) (by omega)
    omega
  · rw [crcShift_odd c1 p1, crcShift_even c2 p2] at h
    have := xor_poly_ge (c1 / 2) (by omega)
    omega
  · rw [crcShift_odd c1 p1, crcShift_odd c2 p2] at h
    have := Nat.xor_left_inj.mp h
    omega

theorem crcBits_injective (n : Nat) : ∀ (c1 c2 : Nat), c1 < 65536 → c2 < 65536 →
    crcBits n c1 = crcBits n c2 → c1 = c2 := by
  induction n with
  | zero =>
    intro c1 c2 _ _ h
    simpa [crcBits] using h
  | succ n ih =>
    intro c1 c2 h1 h2 h
    rw [crcBits, crcBits] at h
    exact crcShift_injective c1 c2 h1 h2
      (ih _ _ (crcShift_lt c1 h1) (crcShift_lt c2 h2) h)

theorem crcLoop_injective (m : List Nat) : ∀ (c1 c2 : Nat), c1 < 65536 → c2 < 65536 →
    crcLoop m c1 = crcLoop m c2 → c1 = c2 := by
  induction m with
  | nil =>
    intro c1 c2 _ _ h
    simpa [crcLoop] using h
  | cons b rest ih =>
    intro c1 c2 h1 h2 h
    rw [crcLoop, crcLoop] at h
    have hb : b % 65536 < 2 ^ 16 := Nat.mod_lt _ (by decide)
    have hx1 : c1 ^^^ (b % 65536) < 65536 := Nat.xor_lt_two_pow (n := 16) h1 hb
    have hx2 : c2 ^^^ (b % 65536) < 65536 := Nat.xor_lt_two_pow (n := 16) h2 hb
    have h3 := ih _ _ (crcBits_lt 8 _ hx1) (crcBits_lt 8 _ hx2) h
    exact Nat.xor_left_inj.mp (crcBits_injective 8 _ _ hx1 hx2 h3)

theorem Modbus_CRC16_middle_ne (pre post : List Nat) (b1 b2 : Nat) (h1 : b1 < 256)
    (h2 : b2 < 256) (hne : b1 ≠ b2) :
    Modbus_CRC16 (pre ++ b1 :: post) ≠ Modbus_CRC16 (pre ++ b2 :: post) := by
  intro heq
  unfold Modbus_CRC16 at heq
  rw [crcLoop_append, crcLoop_append, crcLoop, crcLoop] at heq
  have hc : crcLoop pre 0xFFFF < 65536 := crcLoop_lt _ _ (by decide)
  have e1 : b1 % 65536 = b1 := Nat.mod_eq_of_lt (by omega)
  have e2 : b2 % 65536 = b2 := Nat.mod_eq_of_lt (by omega)
  rw [e1, e2] at heq
  have hx1 : crcLoop pre 0xFFFF ^^^ b1 < 65536 := Nat.xor_lt_two_pow (n := 16) hc (by omega)
  have hx2 : crcLoop pre 0xFFFF ^^^ b2 < 65536 := Nat.xor_lt_two_pow (n := 16) hc (by omega)
  have h3 := crcLoop_injective _ _ _ (crcBits_lt 8 _ hx1) (crcBits_lt 8 _ hx2) heq
  exact hne (Nat.xor_right_inj.mp (crcBits_injective 8 _ _ hx1 hx2 h3))

theorem Modbus_CRC16_set_ne (m : List Nat) (i v : Nat) (hi : i < m.length)
    (hv : v < 256) (hm : m.getD i 0 < 256) (hne : v ≠ m.getD i 0) :
    Modbus_CRC16 (m.set i v) ≠ Modbus_CRC16 m := by
  have hset : m.set i v = m.take i ++ v :: m.drop (i + 1) := by
    rw [List.set_eq_take_append_cons_drop, if_pos hi]
  have hm0 : m.take i ++ m.getD i 0 :: m.drop (i + 1) = m := by
    have h1 : m.getD i 0 = m[i] := by
      rw [List.getD_eq_getElem?_getD, List.getElem?_eq_getElem hi]
      rfl
    rw [h1, ← List.drop_eq_getElem_cons hi, List.take_append_drop]
  have h := Modbus_CRC16_middle_ne (m.take i) (m.drop (i + 1)) v (m.getD i 0) hv hm hne
  rw [← hset, hm0] at h
  exact h

theorem eq_set_of_differ_at (m1 m2 : List Nat) (i : Nat) (hlen : m1.length = m2.length)
    (hi : i < m1.length) (hsame : ∀ j, j ≠ i → m1.getD j 0 = m2.getD j 0) :
    m2 = m1.set i (m2.getD i 0) := by
  apply List.ext_getElem?
  intro j
  by_cases hj : j = i
  · subst hj
    rw [List.getElem?_set_self hi, List.getD_eq_getElem?_getD,
      List.getElem?_eq_getElem (by omega)]
    rfl
  · rw [List.getElem?_set_ne (fun h => hj h.symm)]
    by_cases hjl : j < m1.length
    · have h := hsame j hj
      rw [List.getD_eq_getElem?_getD, List.getD_eq_getElem?_getD,
        List.getElem?_eq_getElem hjl, List.getElem?_eq_getElem (by omega)] at h
      rw [List.getElem?_eq_getElem hjl, List.getElem?_eq_getElem (by omega)]
      simp only [Option.getD_some] at h
      rw [h]
    · rw [List.getElem?_eq_none (by omega), List.getElem?_eq_none (by omega)]


theorem Modbus_ReadRegs_accepted_inv (dev : BSQ_Device_t) (start_reg reg_count : Nat)
    (out_buf out : Buf) (resp : List Nat) (rest : List (HAL_StatusTypeDef × List Nat))
    (hlen : resp.length = (5 + reg_count * 2) % 65536) (hb : ∀ b ∈ resp, b < 256)
    (hrep : dev.rs485.huart.replies = (HAL_StatusTypeDef.HAL_OK, resp) :: rest)
    (hacc : (Modbus_ReadRegs dev start_reg reg_count out_buf).2 = some (true, out)) :
    resp.length ≤ 32 ∧ 3 ≤ resp.length ∧ Modbus_CRC16 (frameBody resp) = frameCrc resp := by
  have hv := Modbus_ReadRegs_value dev start_reg reg_count out_buf _ resp rest hrep hlen
  have h32 : resp.length ≤ 32 := by
    by_contra hgt
    rw [hv, if_neg hgt] at hacc
    exact Option.noConfusion hacc
  have h3 : 3 ≤ resp.length := by
    by_contra hlt
    have h1 : resp.length = 1 := by omega
    rw [hv, if_pos h32, if_neg (by simp)] at hacc
    exact readRegsCheck_short _ _ _ _ _ (rd_unwritten resp _ 1 (by omega)) hacc
  refine ⟨h32, h3, ?_⟩
  rw [Modbus_ReadRegs_HAL_OK dev start_reg reg_count out_buf resp rest hrep hlen h3 h32 hb]
    at hacc
  by_contra hne
  by_cases c0 : resp.getD 0 0 = dev.slave_addr
  · by_cases c1 : resp.getD 1 0 = 0x03
    · simp only [c0, c1, hne, ne_eq, not_true_eq_false, if_false, not_false_eq_true,
        if_true] at hacc
      simp at hacc
    · simp only [c0, c1, ne_eq, not_true_eq_false, if_false, not_false_eq_true,
        if_true] at hacc
      simp at hacc
  · simp only [c0, ne_eq, not_false_eq_true, if_true] at hacc
    simp at hacc

theorem Modbus_ReadRegs_rejects_bad_crc (dev : BSQ_Device_t) (start_reg reg_count : Nat)
    (out_buf : Buf) (resp : List Nat) (rest : List (HAL_StatusTypeDef × List Nat))
    (hrep : dev.rs485.huart.replies = (HAL_StatusTypeDef.HAL_OK, resp) :: rest)
    (hlen : resp.length = (5 + reg_count * 2) % 65536) (h3 : 3 ≤ resp.length)
    (h32 : resp.length ≤ 32) (hb : ∀ b ∈ resp, b < 256)
    (hne : Modbus_CRC16 (frameBody resp) ≠ frameCrc resp) :
    (Modbus_ReadRegs dev start_reg reg_count out_buf).2 = some (false, out_buf) := by
  rw [Modbus_ReadRegs_HAL_OK dev start_reg reg_count out_buf resp rest hrep hlen h3 h32 hb]
  by_cases d0 : resp.getD 0 0 = dev.slave_addr
  · by_cases d1 : resp.getD 1 0 = 0x03
    · simp only [d0, d1, hne, ne_eq, not_true_eq_false, if_false, not_false_eq_true, if_true]
    · simp only [d0, d1, ne_eq, not_true_eq_false, if_false, not_false_eq_true, if_true]
  · simp only [d0, ne_eq, not_false_eq_true, if_true]

theorem set_bytes (frame : List Nat) (k v : Nat) (hv : v < 256)
    (hb : ∀ b ∈ frame, b < 256) : ∀ b ∈ frame.set k v, b < 256 := by
  intro b hmem
  rcases List.mem_or_eq_of_mem_set hmem with h | h
  · exact hb b h
  · rw [h]
    exact hv

theorem frameBody_set (frame : List Nat) (k v : Nat) :
    frameBody (frame.set k v) = (frameBody frame).set k v := by
  unfold frameBody
  rw [List.length_set, List.set_take]

theorem frameBody_getD (frame : List Nat) (k : Nat) (hk : k + 2 < frame.length) :
    (frameBody frame).getD k 0 = frame.getD k 0 := by
  unfold frameBody
  rw [List.getD_eq_getElem?_getD, List.getD_eq_getElem?_getD, List.getElem?_take,
    if_pos (by omega)]

theorem frameCrc_set (frame : List Nat) (k v : Nat) (hk : k + 2 < frame.length) :
    frameCrc (frame.set k v) = frameCrc frame := by
  unfold frameCrc
  simp only [List.length_set, List.getD_eq_getElem?_getD]
  rw [List.getElem?_set_ne (by omega), List.getElem?_set_ne (by omega)]

/-- C18: two byte sequences of the same length that differ in exactly one
byte position have different `Modbus_CRC16` values.  Consequently, for every
read response that `Modbus_ReadRegs` accepts, the response with one byte
before the CRC field (address, function code, byte count or data) replaced by
another byte value, the CRC field unchanged, is rejected: `Modbus_ReadRegs`
returns false and leaves the output array untouched. -/
theorem Modbus_CRC16_detects_changed_byte (m1 m2 : List Nat) (i : Nat)
    (hlen : m1.length = m2.length) (hi : i < m1.length)
    (hb1 : ∀ b ∈ m1, b < 256) (hb2 : ∀ b ∈ m2, b < 256)
    (hdiff : m1.getD i 0 ≠ m2.getD i 0) (hsame : ∀ j, j ≠ i → m1.getD j 0 = m2.getD j 0)
    (dev dev2 : BSQ_Device_t) (start_reg reg_count : Nat) (out_buf out : Buf)
    (resp : List Nat) (rest rest2 : List (HAL_StatusTypeDef × List Nat)) (k v : Nat)
    (hlenr : resp.length = (5 + reg_count * 2) % 65536) (hbr : ∀ b ∈ resp, b < 256)
    (hrep : dev.rs485.huart.replies = (HAL_StatusTypeDef.HAL_OK, resp) :: rest)
    (hacc : (Modbus_ReadRegs dev start_reg reg_count out_buf).2 = some (true, out))
    (hk : k + 2 < resp.length) (hv : v < 256) (hvne : v ≠ resp.getD k 0)
    (hrep2 : dev2.rs485.huart.replies =
      (HAL_StatusTypeDef.HAL_OK, resp.set k v) :: rest2) :
    Modbus_CRC16 m1 ≠ Modbus_CRC16 m2 ∧
      (Modbus_ReadRegs dev2 start_reg reg_count out_buf).2 = some (false, out_buf) := by
  constructor
  · have h2 := eq_set_of_differ_at m1 m2 i hlen hi hsame
    have hne := Modbus_CRC16_set_ne m1 i (m2.getD i 0) hi
      (getD_lt_of_bytes m2 hb2 i) (getD_lt_of_bytes m1 hb1 i) (fun h => hdiff h.symm)
    rw [← h2] at hne
    exact fun h => hne h.symm
  · obtain ⟨h32, h3, c2⟩ :=
      Modbus_ReadRegs_accepted_inv dev start_reg reg_count out_buf out resp rest hlenr hbr
        hrep hacc
    have hbody : Modbus_CRC16 (frameBody (resp.set k v)) ≠ frameCrc (resp.set k v) := by
      rw [frameBody_set, frameCrc_set resp k v hk, ← c2]
      have hkb : k < (frameBody resp).length := by
        unfold frameBody
        rw [List.length_take]
        omega
      exact Modbus_CRC16_set_ne (frameBody resp) k v hkb hv
        (by rw [frameBody_getD resp k hk]; exact getD_lt_of_bytes resp hbr k)
        (by rw [frameBody_getD resp k hk]; exact hvne)
    exact Modbus_ReadRegs_rejects_bad_crc dev2 start_reg reg_count out_buf (resp.set k v)
      rest2 hrep2 (by rw [List.length_set, hlenr]) (by rw [List.length_set]; exact h3)
      (by rw [List.length_set]; exact h32) (set_bytes resp k v hv hbr) hbody

theorem exampleDevice_accepts :
    (Modbus_ReadRegs exampleDevice REG_MEASURE_VAL 2 (List.replicate 4 none)).2 =
      some (true, [some 0x00, some 0x96, some 0x00, some 0x01]) := by
  decide!

/-- C18 at the six bytes of the read request with the register count changed
from 2 to 3, and at the example response with its data byte `96` changed to
`97`. -/
theorem Modbus_CRC16_detects_changed_byte_witness :
    Modbus_CRC16 [0x01, 0x03, 0x00, 0x00, 0x00, 0x02] ≠
        Modbus_CRC16 [0x01, 0x03, 0x00, 0x00, 0x00, 0x03] ∧
      (Modbus_ReadRegs
          (deviceOn 1 [(HAL_StatusTypeDef.HAL_OK, exampleResponse.set 4 0x97)])
          REG_MEASURE_VAL 2 (List.replicate 4 none)).2 =
        some (false, List.replicate 4 none) :=
  Modbus_CRC16_detects_changed_byte [0x01, 0x03, 0x00, 0x00, 0x00, 0x02]
    [0x01, 0x03, 0x00, 0x00, 0x00, 0x03] 5 rfl (by decide) (by decide) (by decide)
    (by decide)
    (by
      intro j hj
      match j, hj with
      | 0, _ => rfl
      | 1, _ => rfl
      | 2, _ => rfl
      | 3, _ => rfl
      | 4, _ => rfl
      | 5, h => exact absurd rfl h
      | _ + 6, _ => rfl)
    exampleDevice (deviceOn 1 [(HAL_StatusTypeDef.HAL_OK, exampleResponse.set 4 0x97)])
    REG_MEASURE_VAL 2 (List.replicate 4 none) [some 0x00, some 0x96, some 0x00, some 0x01]
    exampleResponse [] [] 4 0x97 rfl (by decide) rfl exampleDevice_accepts (by decide)
    (by decide) (by decide) rfl

end Bsq
